import Mathlib

/-!
Shallow embedding of `src/web/js/proxies/Proxies.js` and
`src/web/js/electron/capture/pagination/PagingBrowser.js` from
synle/polar-bookshelf, together with theorems settling the spec claims.

JavaScript objects are modelled as association lists of property
descriptors living in an explicit heap; `Proxies.trace` and
`Proxies.create` are state-passing functions over that heap.  The
numeric code of `PagingBrowser` is modelled over `ℚ` with `Int.ceil`
standing in for `Math.ceil`.
-/

set_option autoImplicit false

namespace PolarProxies

/-! ## PagingBrowser (src/web/js/electron/capture/pagination/PagingBrowser.js) -/

/-- `window.scrollX` / `window.scrollY` pair, from the `Point` class. -/
structure Point where
  x : ℚ
  y : ℚ
  deriving DecidableEq, Repr

/-- A width/height pair, from the `Dimensions` class. -/
structure Dimensions where
  width : ℚ
  height : ℚ
  deriving DecidableEq, Repr

/-- The atomic page state returned by `PagingBrowser.state()`:
scroll position, scroll box size, and viewport size. -/
structure PagingState where
  scrollPosition : Point
  scrollBox : Dimensions
  viewportBox : Dimensions
  deriving DecidableEq, Repr

namespace PagingBrowser

/-- `PagingBrowser.perc(n, d)`:
`Math.ceil(Math.min(100 * (Math.ceil(n) / d), 100))`.
Division is `ℚ` division, so the model is meaningful for `d ≠ 0`
(JavaScript produces `Infinity` on a zero denominator; all theorems
assume a positive denominator). -/
def perc (n d : ℚ) : ℚ :=
  ((⌈min (100 * ((⌈n⌉ : ℚ) / d)) 100⌉ : ℤ) : ℚ)

/-- `PagingBrowser.visualScrollPercentage(state)`. -/
def visualScrollPercentage (state : PagingState) : Dimensions :=
  { width := perc (state.scrollPosition.x + state.viewportBox.width) state.scrollBox.width
    height := perc (state.scrollPosition.y + state.viewportBox.height) state.scrollBox.height }

/-- `PagingBrowser.fullyPaginated(state)`:
`visualScrollPercentage(state).height >= 100`. -/
def fullyPaginated (state : PagingState) : Bool :=
  decide (100 ≤ (visualScrollPercentage state).height)

/-- `PagingBrowser.computeMaxScrollPositions(state)`. -/
def computeMaxScrollPositions (state : PagingState) : Point :=
  { x := state.scrollBox.width - state.viewportBox.width
    y := state.scrollBox.height - state.viewportBox.height }

/-- `PagingBrowser.computePageDownScrollPosition(state)`. -/
def computePageDownScrollPosition (state : PagingState) : Point :=
  { x := 0
    y := min (state.scrollPosition.y + state.viewportBox.height * (9 / 10))
             (computeMaxScrollPositions state).y }

end PagingBrowser

/-! ## Proxies (src/web/js/proxies/Proxies.js)

JavaScript values are embedded as `JSVal`; objects live in an explicit
heap indexed by addresses.  `TraceHandler` instances live in their own
heap.  Listeners are opaque and identified by numbers. -/

abbrev Addr := Nat
abbrev HandlerId := Nat
abbrev ListenerId := Nat

/-- A JavaScript value.  `vProxy a h` is the exotic object produced by
`new Proxy(value, traceHandler)` for target address `a` and handler `h`;
`vBoundATL h` is the function value
`traceHandler.addTraceListener.bind(traceHandler)`;
`vListeners ls` is the listener array stored under `__traceListeners`. -/
inductive JSVal where
  | vUndefined : JSVal
  | vBool : Bool → JSVal
  | vNum : Int → JSVal
  | vStr : String → JSVal
  | vObj : Addr → JSVal
  | vProxy : Addr → HandlerId → JSVal
  | vBoundATL : HandlerId → JSVal
  | vListeners : List ListenerId → JSVal
  deriving DecidableEq, Repr

/-- The JavaScript `typeof` operator on the embedded values. -/
def typeof : JSVal → String
  | .vUndefined => "undefined"
  | .vBool _ => "boolean"
  | .vNum _ => "number"
  | .vStr _ => "string"
  | .vObj _ => "object"
  | .vProxy _ _ => "object"
  | .vBoundATL _ => "function"
  | .vListeners _ => "object"

/-- JavaScript truthiness of an embedded value. -/
def isTruthy : JSVal → Bool
  | .vUndefined => false
  | .vBool b => b
  | .vNum n => decide (n ≠ 0)
  | .vStr s => decide (s ≠ "")
  | .vObj _ => true
  | .vProxy _ _ => true
  | .vBoundATL _ => true
  | .vListeners _ => true

/-- The heap address behind an object-typed value.  A `Proxy` is
transparent for property access (the `TraceHandler` contract passes
reads and writes through to its target), so it resolves to its target
address. -/
def addrOf : JSVal → Option Addr
  | .vObj a => some a
  | .vProxy a _ => some a
  | _ => none

/-- A property descriptor: the attributes `Object.defineProperty`
manipulates, as far as this code uses them. -/
structure PropDesc where
  value : JSVal
  enumerable : Bool
  writable : Bool
  deriving DecidableEq, Repr

/-- A JavaScript object: its own properties in insertion order and its
`Object.isFrozen` status. -/
structure JSObject where
  frozen : Bool
  props : List (String × PropDesc)
  deriving DecidableEq, Repr

/-- Association-list lookup (first matching key). -/
def alookup {κ ν : Type} [DecidableEq κ] : List (κ × ν) → κ → Option ν
  | [], _ => none
  | (k, v) :: rest, key => if k = key then some v else alookup rest key

/-- Association-list update: replace the binding in place if the key is
present, append it otherwise (JavaScript insertion order). -/
def aupdate {κ ν : Type} [DecidableEq κ] : List (κ × ν) → κ → ν → List (κ × ν)
  | [], k, v => [(k, v)]
  | (k', v') :: rest, k, v =>
      if k' = k then (k, v) :: rest else (k', v') :: aupdate rest k v

/-- `name in value`: property-existence test. -/
def JSObject.hasProp (o : JSObject) (k : String) : Bool :=
  (alookup o.props k).isSome

/-- The ordinary assignment `o[k] = v` (sloppy mode): a no-op on a
frozen object or a non-writable existing property, otherwise it updates
the value in place or creates an enumerable writable property. -/
def JSObject.setProp (o : JSObject) (k : String) (v : JSVal) : JSObject :=
  if o.frozen then o
  else
    match alookup o.props k with
    | some d =>
        if d.writable then { o with props := aupdate o.props k { d with value := v } } else o
    | none => { o with props := aupdate o.props k ⟨v, true, true⟩ }

/-- `new TraceHandler(path, traceListeners, value, Proxies)`: the state
the handler carries (the `Proxies` back-reference is the module itself
and needs no field). -/
structure TraceHandlerRec where
  path : String
  listeners : List ListenerId
  target : Addr
  deriving DecidableEq, Repr

/-- The mutable state the `Proxies` module touches: the module-level
`sequence` counter, the object heap, and the heap of `TraceHandler`
instances (`nextHandler` is the allocator for fresh handlers). -/
structure ProxiesState where
  sequence : Nat
  objects : List (Addr × JSObject)
  handlers : List (HandlerId × TraceHandlerRec)
  nextHandler : HandlerId
  deriving DecidableEq, Repr

def getObj (st : ProxiesState) (a : Addr) : Option JSObject :=
  alookup st.objects a

def setObjHeap (st : ProxiesState) (a : Addr) (o : JSObject) : ProxiesState :=
  { st with objects := aupdate st.objects a o }

/-- The errors the embedded code can raise.  `notAnObject` is the spec's
NotAnObject (`"Only works on objects"` / `"We can only trace object
types"`); `notCallable` is the host `TypeError` from calling a
non-function; `danglingAddr` is a model artifact for addresses that are
not in the heap (unreachable from well-formed states). -/
inductive JSError where
  | notAnObject : JSError
  | notCallable : JSError
  | danglingAddr : JSError
  deriving DecidableEq, Repr

/-- The names of the three hidden bookkeeping attributes installed by
`Proxies.trace`. -/
def hiddenNames : List String :=
  ["__traceIdentifier", "__traceListeners", "__path"]

/-- The `privateMembers` array built inside `Proxies.trace` (the
`sequence++` that produces the identifier is threaded by the caller). -/
def privateMembers (idVal : Nat) (traceListeners : List ListenerId) (path : String) :
    List (String × JSVal) :=
  [("__traceIdentifier", .vNum idVal),
   ("__traceListeners", .vListeners traceListeners),
   ("__path", .vStr path)]

/-- One iteration of the `privateMembers.forEach` loop:
`if (!(name in value)) Object.defineProperty(value, name,
{value, enumerable: false, writable: false})`. -/
def defineIfMissing (o : JSObject) (nm : String) (v : JSVal) : JSObject :=
  if o.hasProp nm then o
  else { o with props := aupdate o.props nm ⟨v, false, false⟩ }

/-- The whole `privateMembers.forEach(...)` loop of `Proxies.trace`. -/
def installHidden (o : JSObject) (idVal : Nat) (traceListeners : List ListenerId)
    (path : String) : JSObject :=
  (privateMembers idVal traceListeners path).foldl
    (fun acc p => defineIfMissing acc p.1 p.2) o

/-- The tail of `Proxies.trace` after the hidden attributes are
installed: the `if (value.addTraceListener)` dispatch followed by
`return new Proxy(value, traceHandler)`.  `a` is the traced object's
address, `h` the identifier of the `TraceHandler` this call constructed,
`o2` the object after the hidden-attribute loop, and `st3` the state
holding it.  On the merge path, `value.addTraceListener(traceListeners)`
is `TraceHandler.addTraceListener` — not under src/; modelled from the
spec: it appends the given listeners to the handler's ordered list
without deduplication (§4.3). -/
def attachAndWrap (a : Addr) (h : HandlerId) (traceListeners : List ListenerId)
    (o2 : JSObject) (st3 : ProxiesState) : Except JSError JSVal × ProxiesState :=
  match alookup o2.props "addTraceListener" with
  | some d =>
    if isTruthy d.value then
      match d.value with
      | .vBoundATL h0 =>
        match alookup st3.handlers h0 with
        | some hr =>
          let st4 : ProxiesState :=
            { st3 with
              handlers := aupdate st3.handlers h0
                { hr with listeners := hr.listeners ++ traceListeners } }
          (.ok (.vProxy a h), st4)
        | none => (.error .danglingAddr, st3)
      | _ => (.error .notCallable, st3)
    else
      let o3 : JSObject :=
        { o2 with props := aupdate o2.props "addTraceListener" ⟨.vBoundATL h, false, false⟩ }
      (.ok (.vProxy a h), setObjHeap st3 a o3)
  | none =>
    let o3 : JSObject :=
      { o2 with props := aupdate o2.props "addTraceListener" ⟨.vBoundATL h, false, false⟩ }
    (.ok (.vProxy a h), setObjHeap st3 a o3)

namespace Proxies

/-- `Proxies.trace(path, value, traceListeners)`.

Mirrors the source line by line: the `typeof` guard, the
`TraceListeners.asArray` normalization (the identity here, since the
argument is already a list), the `Object.isFrozen` early return, the
`new TraceHandler(...)` allocation, the `privateMembers` array whose
construction consumes `sequence++`, the `forEach` installing each hidden
attribute only when absent, the `value.addTraceListener` dispatch, and
the final `new Proxy(value, traceHandler)`.

`TraceHandler.addTraceListener` (called on the merge path) is not under
src/; modelled from the spec: it appends the given listeners to the
handler's ordered list without deduplication (§4.3). -/
def trace (path : String) (value : JSVal) (traceListeners : List ListenerId)
    (st : ProxiesState) : Except JSError JSVal × ProxiesState :=
  if typeof value ≠ "object" then (.error .notAnObject, st)
  else
    match addrOf value with
    | none => (.error .notAnObject, st)
    | some a =>
      match getObj st a with
      | none => (.error .danglingAddr, st)
      | some o =>
        if o.frozen then (.ok value, st)
        else
          let h := st.nextHandler
          let st1 : ProxiesState :=
            { st with
              handlers := aupdate st.handlers h ⟨path, traceListeners, a⟩
              nextHandler := h + 1 }
          let idVal := st1.sequence
          let st2 : ProxiesState := { st1 with sequence := idVal + 1 }
          let o2 := installHidden o idVal traceListeners path
          let st3 := setObjHeap st2 a o2
          attachAndWrap a h traceListeners o2 st3

end Proxies

/-- One record of the Graph Walker's output: `ObjectPaths.recurse`
yields, for every object-valued node of the graph, its relative path,
its value, and its parent object and key (`parent`/`parentKey` null
only for the root). -/
structure ObjectPathEntry where
  path : String
  value : JSVal
  parent : Option Addr
  parentKey : String
  deriving DecidableEq, Repr

/-- Modelled from the spec: `Paths.create` (the Path Resolver of §6,
`src/web/js/util/Paths.js`, not under src/) joins a path component onto
a prefix — `join(prefix, relativePath) -> path`; pure, never fails for
strings.  Modelled as slash-join. -/
def Paths.create (pathPrefix relPath : String) : String :=
  pathPrefix ++ "/" ++ relPath

/-- The path handed to `Proxies.trace` for a record:
`opts.pathPrefix && opts.pathPrefix !== "" ? Paths.create(opts.pathPrefix, path) : path`. -/
def effPath (pathPrefix relPath : String) : String :=
  if pathPrefix ≠ "" then Paths.create pathPrefix relPath else relPath

namespace Proxies

/-- The `objectPathEntries.forEach` loop of `Proxies.create`: for each
record, compute the (possibly prefixed) path, call `Proxies.trace`, and
either splice the proxy into `parent[parentKey]` (ordinary assignment)
or remember it as the root.  `root` starts as `null` (`none`). -/
def createLoop (traceListeners : List ListenerId) (pathPrefix : String) :
    List ObjectPathEntry → Option JSVal → ProxiesState →
    Except JSError (Option JSVal) × ProxiesState
  | [], root, st => (.ok root, st)
  | e :: rest, root, st =>
    let path := effPath pathPrefix e.path
    match trace path e.value traceListeners st with
    | (.error err, st') => (.error err, st')
    | (.ok proxy, st') =>
      match e.parent with
      | some a =>
        match getObj st' a with
        | some po => createLoop traceListeners pathPrefix rest root
            (setObjHeap st' a (po.setProp e.parentKey proxy))
        | none => (.error .danglingAddr, st')
      | none => createLoop traceListeners pathPrefix rest (some proxy) st'

/-- `Proxies.create(target, traceListeners, opts)`.

`Objects.defaults` (not under src/) is modelled from the spec as a
shallow merge of the caller's options over `{pathPrefix: ""}`: the
option is passed as `Option String` and defaulted with `getD ""`.
`ObjectPaths.recurse(target)` (not under src/) is modelled from the
spec by passing its output — the walk records — as the explicit
argument `objectPathEntries`, constrained by the Graph Walker contract
(§6) in the theorems.  `TraceListeners.asArray` is the identity on an
already-normalized list, and the `!traceListeners` defaulting is the
caller passing `[]`.  The `typeof` guard runs before anything else, so
a non-object target fails before any mutation. -/
def create (target : JSVal) (traceListeners : List ListenerId)
    (optsPathPrefix : Option String) (objectPathEntries : List ObjectPathEntry)
    (st : ProxiesState) : Except JSError (Option JSVal) × ProxiesState :=
  if typeof target ≠ "object" then (.error .notAnObject, st)
  else
    let pathPrefix := optsPathPrefix.getD ""
    createLoop traceListeners pathPrefix objectPathEntries none st

end Proxies

/-- The trace identifier stored on the object at address `a`, when the
object carries a numeric `__traceIdentifier` property. -/
def storedTraceId (st : ProxiesState) (a : Addr) : Option Int :=
  match getObj st a with
  | some o =>
    match alookup o.props "__traceIdentifier" with
    | some d =>
      match d.value with
      | .vNum n => some n
      | _ => none
    | none => none
  | none => none

/-- Every stored trace identifier is below the sequence counter. -/
def idsBounded (st : ProxiesState) : Prop :=
  ∀ a n, storedTraceId st a = some n → n < (st.sequence : Int)

/-- Stored trace identifiers of distinct objects are distinct. -/
def idsInjective (st : ProxiesState) : Prop :=
  ∀ a b m n, storedTraceId st a = some m → storedTraceId st b = some n →
    a ≠ b → m ≠ n

/-- The four property names `Proxies.trace` may install on a value. -/
def specialNames : List String :=
  hiddenNames ++ ["addTraceListener"]

/-- The property descriptor stored at key `k` of the object at address
`b`, if any. -/
def lookupProp (st : ProxiesState) (b : Addr) (k : String) : Option PropDesc :=
  (getObj st b).bind (fun o => alookup o.props k)

/-- Either the object at `b` has no `addTraceListener` property, or
that property is a bound registration method of an installed
`TraceHandler` (the only states the source ever produces). -/
def atlPropOK (st : ProxiesState) (b : Addr) : Prop :=
  match lookupProp st b "addTraceListener" with
  | none => True
  | some d => ∃ h0, d.value = .vBoundATL h0 ∧ (alookup st.handlers h0).isSome = true

/-- The node-value side conditions of the Graph Walker contract, as
`Proxies.create`'s loop needs them: each record's value is an object in
the heap, and it is either frozen or non-frozen with a well-formed (or
absent) `addTraceListener`. -/
def entryValueOK (st : ProxiesState) (e : ObjectPathEntry) : Prop :=
  ∃ a o, e.value = .vObj a ∧ getObj st a = some o ∧
    (o.frozen = true ∨ (o.frozen = false ∧ atlPropOK st a))

/-- The parent-to-child edge a walk record rewires, when it has one. -/
def entryEdge (e : ObjectPathEntry) : Option (Addr × String) :=
  e.parent.map (fun pa => (pa, e.parentKey))

/-- The Graph Walker visits every edge at most once: the records'
parent/key pairs are pairwise distinct. -/
def edgesDistinct (entries : List ObjectPathEntry) : Prop :=
  List.Pairwise (fun e1 e2 => ∀ p, entryEdge e1 = some p → entryEdge e2 ≠ some p) entries

/-- What one `Proxies.create` loop step preserves of the graph: object
presence and frozen flags, installed handlers, and well-formedness of
`addTraceListener` properties. -/
structure GraphPres (st st' : ProxiesState) : Prop where
  frozen : ∀ b ob, getObj st b = some ob →
    ∃ ob', getObj st' b = some ob' ∧ ob'.frozen = ob.frozen
  handlers : ∀ h', (alookup st.handlers h').isSome = true →
    (alookup st'.handlers h').isSome = true
  atl : ∀ b, atlPropOK st b → atlPropOK st' b

/-- The parent-object side conditions of the Graph Walker contract: a
record's parent is a non-frozen heap object whose property at
`parentKey`, if present, is writable. -/
def entryParentOK (st : ProxiesState) (e : ObjectPathEntry) : Prop :=
  ∀ a, e.parent = some a →
    ∃ o, getObj st a = some o ∧ o.frozen = false ∧
      (∀ d, alookup o.props e.parentKey = some d → d.writable = true)

/-- The shape `Proxies.trace` gives back for a node value: the value
itself when its object is frozen, a `Proxy` wrapping its address
otherwise (the frozen flag read in state `st`). -/
def isWrapOf (st : ProxiesState) (orig stored : JSVal) : Prop :=
  ∃ a o, orig = .vObj a ∧ getObj st a = some o ∧
    ((o.frozen = true ∧ stored = orig) ∨
     (o.frozen = false ∧ ∃ h, stored = .vProxy a h))

/-- A one-object heap holding a plain, untraced, non-frozen object at
address `0` (used to instantiate the theorems at concrete inputs). -/
def freshState : ProxiesState :=
  { sequence := 0
    objects := [(0, ⟨false, []⟩)]
    handlers := []
    nextHandler := 0 }

/-- The state `Proxies.trace "a" (vObj 0) [7]` produces from
`freshState`: object `0` carries the three hidden attributes and the
bound `addTraceListener` of handler `0`. -/
def tracedState : ProxiesState :=
  { sequence := 1
    objects :=
      [(0,
        ⟨false,
          [("__traceIdentifier", ⟨.vNum 0, false, false⟩),
           ("__traceListeners", ⟨.vListeners [7], false, false⟩),
           ("__path", ⟨.vStr "a", false, false⟩),
           ("addTraceListener", ⟨.vBoundATL 0, false, false⟩)]⟩)]
    handlers := [(0, ⟨"a", [7], 0⟩)]
    nextHandler := 1 }

/-- A one-object heap holding a frozen object at address `0` and a
plain object at address `1`. -/
def frozenState : ProxiesState :=
  { sequence := 5
    objects := [(0, ⟨true, [("k", ⟨.vNum 1, true, true⟩)]⟩), (1, ⟨false, []⟩)]
    handlers := []
    nextHandler := 0 }

/-- A two-object heap: a plain root at address `0` whose `"child"`
property holds the plain object at address `1`. -/
def twoNodeState : ProxiesState :=
  { sequence := 0
    objects := [(0, ⟨false, [("child", ⟨.vObj 1, true, true⟩)]⟩), (1, ⟨false, []⟩)]
    handlers := []
    nextHandler := 0 }

/-- The Graph Walker output for `twoNodeState`'s root: the root record
followed by the record of its `"child"` node. -/
def twoNodeEntries : List ObjectPathEntry :=
  [⟨"", .vObj 0, none, ""⟩, ⟨"child", .vObj 1, some 0, "child"⟩]

/-! ## Theorems for the claims -/

theorem alookup_aupdate_self {κ ν : Type} [DecidableEq κ] (l : List (κ × ν)) (k : κ) (v : ν) :
    alookup (aupdate l k v) k = some v := by
  induction l with
  | nil => simp [aupdate, alookup]
  | cons p rest ih =>
    by_cases h : p.1 = k
    · simp [aupdate, alookup, h]
    · simp [aupdate, alookup, h, ih]

theorem alookup_aupdate_ne {κ ν : Type} [DecidableEq κ] (l : List (κ × ν)) (k k' : κ) (v : ν)
    (h : k ≠ k') : alookup (aupdate l k v) k' = alookup l k' := by
  induction l with
  | nil => simp [aupdate, alookup, h]
  | cons p rest ih =>
    by_cases hp : p.1 = k
    · simp [aupdate, alookup, hp, h]
    · simp only [aupdate, hp, if_neg hp, alookup]
      by_cases hp' : p.1 = k'
      · simp [alookup, hp']
      · simp [alookup, hp', ih]

theorem getObj_setObjHeap_self (st : ProxiesState) (a : Addr) (o : JSObject) :
    getObj (setObjHeap st a o) a = some o := by
  simp [getObj, setObjHeap, alookup_aupdate_self]

theorem getObj_setObjHeap_ne (st : ProxiesState) (a b : Addr) (o : JSObject) (h : a ≠ b) :
    getObj (setObjHeap st a o) b = getObj st b := by
  simp [getObj, setObjHeap, alookup_aupdate_ne _ _ _ _ h]

theorem sequence_setObjHeap (st : ProxiesState) (a : Addr) (o : JSObject) :
    (setObjHeap st a o).sequence = st.sequence := rfl

theorem handlers_setObjHeap (st : ProxiesState) (a : Addr) (o : JSObject) :
    (setObjHeap st a o).handlers = st.handlers := rfl

theorem defineIfMissing_frozen (o : JSObject) (nm : String) (v : JSVal) :
    (defineIfMissing o nm v).frozen = o.frozen := by
  unfold defineIfMissing
  split <;> rfl

theorem alookup_defineIfMissing_self (o : JSObject) (nm : String) (v : JSVal) :
    alookup (defineIfMissing o nm v).props nm =
      some ((alookup o.props nm).getD ⟨v, false, false⟩) := by
  unfold defineIfMissing JSObject.hasProp
  rcases h : alookup o.props nm with _ | d
  · simp [h, alookup_aupdate_self]
  · simp [h]

theorem alookup_defineIfMissing_ne (o : JSObject) (nm k : String) (v : JSVal)
    (h : k ≠ nm) :
    alookup (defineIfMissing o nm v).props k = alookup o.props k := by
  unfold defineIfMissing
  split
  · rfl
  · simp [alookup_aupdate_ne _ _ _ _ (Ne.symm h)]

theorem installHidden_frozen (o : JSObject) (idVal : Nat) (ls : List ListenerId)
    (path : String) : (installHidden o idVal ls path).frozen = o.frozen := by
  simp [installHidden, privateMembers, List.foldl, defineIfMissing_frozen]

theorem installHidden_eq (o : JSObject) (idVal : Nat) (ls : List ListenerId)
    (path : String) :
    installHidden o idVal ls path =
      defineIfMissing
        (defineIfMissing (defineIfMissing o "__traceIdentifier" (.vNum idVal))
          "__traceListeners" (.vListeners ls))
        "__path" (.vStr path) := by
  simp [installHidden, privateMembers, List.foldl]

theorem alookup_installHidden_traceIdentifier (o : JSObject) (idVal : Nat)
    (ls : List ListenerId) (path : String) :
    alookup (installHidden o idVal ls path).props "__traceIdentifier" =
      some ((alookup o.props "__traceIdentifier").getD ⟨.vNum idVal, false, false⟩) := by
  rw [installHidden_eq]
  rw [alookup_defineIfMissing_ne _ _ _ _ (by decide),
    alookup_defineIfMissing_ne _ _ _ _ (by decide),
    alookup_defineIfMissing_self]

theorem alookup_installHidden_traceListeners (o : JSObject) (idVal : Nat)
    (ls : List ListenerId) (path : String) :
    alookup (installHidden o idVal ls path).props "__traceListeners" =
      some ((alookup o.props "__traceListeners").getD ⟨.vListeners ls, false, false⟩) := by
  rw [installHidden_eq]
  rw [alookup_defineIfMissing_ne _ _ _ _ (by decide), alookup_defineIfMissing_self,
    alookup_defineIfMissing_ne _ _ _ _ (by decide)]

theorem alookup_installHidden_path (o : JSObject) (idVal : Nat)
    (ls : List ListenerId) (path : String) :
    alookup (installHidden o idVal ls path).props "__path" =
      some ((alookup o.props "__path").getD ⟨.vStr path, false, false⟩) := by
  rw [installHidden_eq]
  rw [alookup_defineIfMissing_self, alookup_defineIfMissing_ne _ _ _ _ (by decide),
    alookup_defineIfMissing_ne _ _ _ _ (by decide)]

theorem alookup_installHidden_ne (o : JSObject) (idVal : Nat) (ls : List ListenerId)
    (path : String) (k : String) (hk : k ∉ hiddenNames) :
    alookup (installHidden o idVal ls path).props k = alookup o.props k := by
  simp only [hiddenNames, List.mem_cons, List.not_mem_nil, or_false, not_or] at hk
  rw [installHidden_eq]
  rw [alookup_defineIfMissing_ne _ _ _ _ hk.2.2, alookup_defineIfMissing_ne _ _ _ _ hk.2.1,
    alookup_defineIfMissing_ne _ _ _ _ hk.1]

/-- `Proxies.trace` on a non-object value: the NotAnObject rejection,
with the state untouched. -/
theorem trace_notObject_eq (path : String) (value : JSVal) (ls : List ListenerId)
    (st : ProxiesState) (h : typeof value ≠ "object") :
    Proxies.trace path value ls st = (.error .notAnObject, st) := by
  unfold Proxies.trace
  simp [h]

/-- `Proxies.trace` on a frozen object: the value is returned as is and
the state is untouched. -/
theorem trace_frozen_eq (path : String) (a : Addr) (o : JSObject) (ls : List ListenerId)
    (st : ProxiesState) (hobj : getObj st a = some o) (hf : o.frozen = true) :
    Proxies.trace path (.vObj a) ls st = (.ok (.vObj a), st) := by
  unfold Proxies.trace
  simp [typeof, addrOf, hobj, hf]

/-- `Proxies.trace` on a non-frozen object, reduced to its two stages:
handler allocation plus hidden-attribute installation, then the
`addTraceListener` dispatch. -/
theorem trace_nonfrozen_eq (path : String) (a : Addr) (o : JSObject) (ls : List ListenerId)
    (st : ProxiesState) (hobj : getObj st a = some o) (hnf : o.frozen = false) :
    Proxies.trace path (.vObj a) ls st =
      attachAndWrap a st.nextHandler ls (installHidden o st.sequence ls path)
        (setObjHeap
          { sequence := st.sequence + 1
            objects := st.objects
            handlers := aupdate st.handlers st.nextHandler ⟨path, ls, a⟩
            nextHandler := st.nextHandler + 1 }
          a (installHidden o st.sequence ls path)) := by
  unfold Proxies.trace
  simp [typeof, addrOf, hobj, hnf]

theorem isSome_alookup_aupdate {κ ν : Type} [DecidableEq κ] (l : List (κ × ν)) (k k' : κ)
    (v : ν) (h : (alookup l k').isSome = true) :
    (alookup (aupdate l k v) k').isSome = true := by
  by_cases hk : k = k'
  · subst hk
    simp [alookup_aupdate_self]
  · rw [alookup_aupdate_ne _ _ _ _ hk]
    exact h

/-- The merge path of the `addTraceListener` dispatch:
`value.addTraceListener(traceListeners)` appends the listeners at the
already-installed handler `h0`, leaves the object untouched, and a new
`Proxy` backed by the freshly built handler `h` is still returned. -/
theorem attachAndWrap_merge (a : Addr) (h : HandlerId) (ls : List ListenerId)
    (o2 : JSObject) (st3 : ProxiesState) (d : PropDesc) (h0 : HandlerId)
    (hr : TraceHandlerRec)
    (hd : alookup o2.props "addTraceListener" = some d)
    (hv : d.value = .vBoundATL h0)
    (hh : alookup st3.handlers h0 = some hr) :
    attachAndWrap a h ls o2 st3 =
      (.ok (.vProxy a h),
        { st3 with
          handlers := aupdate st3.handlers h0
            { hr with listeners := hr.listeners ++ ls } }) := by
  unfold attachAndWrap
  simp [hd, hv, hh, isTruthy]

/-- The fresh path of the `addTraceListener` dispatch: the new handler's
bound registration method is installed as the hidden, non-enumerable,
non-writable `addTraceListener` property. -/
theorem attachAndWrap_absent (a : Addr) (h : HandlerId) (ls : List ListenerId)
    (o2 : JSObject) (st3 : ProxiesState)
    (hd : alookup o2.props "addTraceListener" = none) :
    attachAndWrap a h ls o2 st3 =
      (.ok (.vProxy a h),
        setObjHeap st3 a
          { o2 with
            props := aupdate o2.props "addTraceListener" ⟨.vBoundATL h, false, false⟩ }) := by
  unfold attachAndWrap
  simp [hd]

/-- Branch-independent facts about the `addTraceListener` dispatch: it
never touches the sequence counter, the handler allocator, or any other
object, and on the traced object it only ever touches the
`addTraceListener` property; installed handlers stay installed. -/
theorem attachAndWrap_state_spec (a : Addr) (h : HandlerId) (ls : List ListenerId)
    (o2 : JSObject) (st3 : ProxiesState) :
    ((attachAndWrap a h ls o2 st3).2.sequence = st3.sequence) ∧
    ((attachAndWrap a h ls o2 st3).2.nextHandler = st3.nextHandler) ∧
    (∀ b, b ≠ a → getObj (attachAndWrap a h ls o2 st3).2 b = getObj st3 b) ∧
    (∀ h', (alookup st3.handlers h').isSome = true →
      (alookup (attachAndWrap a h ls o2 st3).2.handlers h').isSome = true) ∧
    (getObj st3 a = some o2 →
      ∃ o', getObj (attachAndWrap a h ls o2 st3).2 a = some o' ∧
        o'.frozen = o2.frozen ∧
        (∀ k, k ≠ "addTraceListener" → alookup o'.props k = alookup o2.props k)) := by
  unfold attachAndWrap
  split
  · split
    · split
      · split
        · refine ⟨rfl, rfl, fun b _ => rfl, ?_, fun hobj => ⟨o2, hobj, rfl, fun k _ => rfl⟩⟩
          intro h' hh'
          exact isSome_alookup_aupdate _ _ _ _ hh'
        · exact ⟨rfl, rfl, fun b _ => rfl, fun h' hh' => hh',
            fun hobj => ⟨o2, hobj, rfl, fun k _ => rfl⟩⟩
      all_goals
        exact ⟨rfl, rfl, fun b _ => rfl, fun h' hh' => hh',
          fun hobj => ⟨o2, hobj, rfl, fun k _ => rfl⟩⟩
    · refine ⟨rfl, rfl, ?_, fun h' hh' => hh', ?_⟩
      · intro b hb
        exact getObj_setObjHeap_ne _ _ _ _ (Ne.symm hb)
      · intro hobj
        refine ⟨_, getObj_setObjHeap_self _ _ _, rfl, ?_⟩
        intro k hk
        exact alookup_aupdate_ne _ _ _ _ (Ne.symm hk)
  · refine ⟨rfl, rfl, ?_, fun h' hh' => hh', ?_⟩
    · intro b hb
      exact getObj_setObjHeap_ne _ _ _ _ (Ne.symm hb)
    · intro hobj
      refine ⟨_, getObj_setObjHeap_self _ _ _, rfl, ?_⟩
      intro k hk
      exact alookup_aupdate_ne _ _ _ _ (Ne.symm hk)

theorem not_mem_specialNames {k : String} (h : k ∉ specialNames) :
    k ∉ hiddenNames ∧ k ≠ "addTraceListener" := by
  simp only [specialNames, List.mem_append, not_or, List.mem_singleton] at h
  exact ⟨h.1, h.2⟩

/-- Master lemma for `Proxies.trace` on a non-frozen object value, valid
on every branch of the `addTraceListener` dispatch (success or error):
the sequence counter and the handler allocator each advance by exactly
one, no other object changes, installed handlers stay installed, and
the traced object keeps its frozen flag, receives each hidden attribute
exactly when it was absent (keeping the original descriptor otherwise),
and keeps every property other than the four bookkeeping ones. -/
theorem trace_nonfrozen_spec (path : String) (a : Addr) (o : JSObject)
    (ls : List ListenerId) (st : ProxiesState)
    (hobj : getObj st a = some o) (hnf : o.frozen = false) :
    ((Proxies.trace path (.vObj a) ls st).2.sequence = st.sequence + 1) ∧
    ((Proxies.trace path (.vObj a) ls st).2.nextHandler = st.nextHandler + 1) ∧
    (∀ b, b ≠ a → getObj (Proxies.trace path (.vObj a) ls st).2 b = getObj st b) ∧
    (∀ h', (alookup st.handlers h').isSome = true →
      (alookup (Proxies.trace path (.vObj a) ls st).2.handlers h').isSome = true) ∧
    ∃ o', getObj (Proxies.trace path (.vObj a) ls st).2 a = some o' ∧
      o'.frozen = false ∧
      alookup o'.props "__traceIdentifier" =
        some ((alookup o.props "__traceIdentifier").getD ⟨.vNum st.sequence, false, false⟩) ∧
      alookup o'.props "__traceListeners" =
        some ((alookup o.props "__traceListeners").getD ⟨.vListeners ls, false, false⟩) ∧
      alookup o'.props "__path" =
        some ((alookup o.props "__path").getD ⟨.vStr path, false, false⟩) ∧
      (∀ k, k ∉ specialNames → alookup o'.props k = alookup o.props k) := by
  rw [trace_nonfrozen_eq path a o ls st hobj hnf]
  obtain ⟨hseq, hnh, hother, hhandlers, hAtA⟩ :=
    attachAndWrap_state_spec a st.nextHandler ls (installHidden o st.sequence ls path)
      (setObjHeap
        { sequence := st.sequence + 1
          objects := st.objects
          handlers := aupdate st.handlers st.nextHandler ⟨path, ls, a⟩
          nextHandler := st.nextHandler + 1 }
        a (installHidden o st.sequence ls path))
  refine ⟨by rw [hseq]; rfl, by rw [hnh]; rfl, ?_, ?_, ?_⟩
  · intro b hb
    rw [hother b hb, getObj_setObjHeap_ne _ _ _ _ (fun hba => hb hba.symm)]
    rfl
  · intro h' hh'
    apply hhandlers
    rw [handlers_setObjHeap]
    exact isSome_alookup_aupdate _ _ _ _ hh'
  · obtain ⟨o', ho', hfr, hkeys⟩ := hAtA (getObj_setObjHeap_self _ _ _)
    refine ⟨o', ho', ?_, ?_, ?_, ?_, ?_⟩
    · rw [hfr, installHidden_frozen]
      exact hnf
    · rw [hkeys _ (by decide), alookup_installHidden_traceIdentifier]
    · rw [hkeys _ (by decide), alookup_installHidden_traceListeners]
    · rw [hkeys _ (by decide), alookup_installHidden_path]
    · intro k hk
      obtain ⟨hk1, hk2⟩ := not_mem_specialNames hk
      rw [hkeys _ hk2, alookup_installHidden_ne _ _ _ _ _ hk1]

/-- `Proxies.trace` on a non-frozen object whose `addTraceListener`
property is either absent or a well-formed bound registration method
returns a freshly built `Proxy` over the value, backed by the handler
this call allocated. -/
theorem trace_nonfrozen_ok (path : String) (a : Addr) (o : JSObject)
    (ls : List ListenerId) (st : ProxiesState)
    (hobj : getObj st a = some o) (hnf : o.frozen = false)
    (hatl : alookup o.props "addTraceListener" = none ∨
      ∃ d h0, alookup o.props "addTraceListener" = some d ∧ d.value = .vBoundATL h0 ∧
        (alookup st.handlers h0).isSome = true) :
    (Proxies.trace path (.vObj a) ls st).1 = .ok (.vProxy a st.nextHandler) := by
  rw [trace_nonfrozen_eq path a o ls st hobj hnf]
  have hatlkeep : alookup (installHidden o st.sequence ls path).props "addTraceListener" =
      alookup o.props "addTraceListener" :=
    alookup_installHidden_ne _ _ _ _ _ (by decide)
  rcases hatl with hnone | ⟨d, h0, hd, hv, hsome⟩
  · rw [attachAndWrap_absent _ _ _ _ _ (by rw [hatlkeep]; exact hnone)]
  · have hsome' : (alookup (aupdate st.handlers st.nextHandler ⟨path, ls, a⟩) h0).isSome
        = true :=
      isSome_alookup_aupdate _ _ _ _ hsome
    obtain ⟨hr, hh⟩ := Option.isSome_iff_exists.mp hsome'
    rw [attachAndWrap_merge _ _ _ _ _ d h0 hr (by rw [hatlkeep]; exact hd) hv hh]

theorem setProp_frozen (o : JSObject) (k : String) (v : JSVal) :
    (o.setProp k v).frozen = o.frozen := by
  unfold JSObject.setProp
  split
  · rfl
  · split
    · split <;> rfl
    · rfl

theorem alookup_setProp_ne (o : JSObject) (k k' : String) (v : JSVal) (h : k' ≠ k) :
    alookup (o.setProp k v).props k' = alookup o.props k' := by
  unfold JSObject.setProp
  split
  · rfl
  · split
    · split
      · exact alookup_aupdate_ne _ _ _ _ (fun he => h he.symm)
      · rfl
    · exact alookup_aupdate_ne _ _ _ _ (fun he => h he.symm)

theorem alookup_setProp_self (o : JSObject) (k : String) (v : JSVal)
    (hfr : o.frozen = false)
    (hwr : ∀ d, alookup o.props k = some d → d.writable = true) :
    ∃ d, alookup (o.setProp k v).props k = some d ∧ d.value = v := by
  unfold JSObject.setProp
  rw [hfr]
  simp only [Bool.false_eq_true, if_false]
  rcases hd : alookup o.props k with _ | d
  · exact ⟨_, alookup_aupdate_self _ _ _, rfl⟩
  · have hw : d.writable = true := hwr d hd
    simp only [hw, if_true]
    exact ⟨_, alookup_aupdate_self _ _ _, rfl⟩

theorem GraphPres.refl (st : ProxiesState) : GraphPres st st :=
  ⟨fun _ ob h => ⟨ob, h, rfl⟩, fun _ h => h, fun _ h => h⟩

theorem GraphPres.trans {st1 st2 st3 : ProxiesState}
    (g1 : GraphPres st1 st2) (g2 : GraphPres st2 st3) : GraphPres st1 st3 := by
  refine ⟨?_, fun h' hh => g2.handlers h' (g1.handlers h' hh),
    fun b hb => g2.atl b (g1.atl b hb)⟩
  intro b ob hob
  obtain ⟨ob2, hob2, hfr2⟩ := g1.frozen b ob hob
  obtain ⟨ob3, hob3, hfr3⟩ := g2.frozen b ob2 hob2
  exact ⟨ob3, hob3, by rw [hfr3, hfr2]⟩

/-- The final `addTraceListener` state after `Proxies.trace` on a
non-frozen object: freshly installed and bound to the new handler when
it was absent, kept as is (with its handler still installed) when it
was a well-formed registration method. -/
theorem trace_atl_dispatch (path : String) (a : Addr) (o : JSObject)
    (ls : List ListenerId) (st : ProxiesState)
    (hobj : getObj st a = some o) (hnf : o.frozen = false) :
    (alookup o.props "addTraceListener" = none →
      (∃ o', getObj (Proxies.trace path (.vObj a) ls st).2 a = some o' ∧
        alookup o'.props "addTraceListener" =
          some ⟨.vBoundATL st.nextHandler, false, false⟩) ∧
      alookup (Proxies.trace path (.vObj a) ls st).2.handlers st.nextHandler =
        some ⟨path, ls, a⟩) ∧
    (∀ d h0, alookup o.props "addTraceListener" = some d → d.value = .vBoundATL h0 →
      (alookup st.handlers h0).isSome = true →
      (∃ o', getObj (Proxies.trace path (.vObj a) ls st).2 a = some o' ∧
        alookup o'.props "addTraceListener" = some d) ∧
      (alookup (Proxies.trace path (.vObj a) ls st).2.handlers h0).isSome = true) := by
  rw [trace_nonfrozen_eq path a o ls st hobj hnf]
  have hatlkeep : alookup (installHidden o st.sequence ls path).props "addTraceListener" =
      alookup o.props "addTraceListener" :=
    alookup_installHidden_ne _ _ _ _ _ (by decide)
  constructor
  · intro hnone
    rw [attachAndWrap_absent _ _ _ _ _ (by rw [hatlkeep]; exact hnone)]
    refine ⟨⟨_, getObj_setObjHeap_self _ _ _, alookup_aupdate_self _ _ _⟩, ?_⟩
    rw [handlers_setObjHeap, handlers_setObjHeap]
    exact alookup_aupdate_self _ _ _
  · intro d h0 hd hv hh
    have hsome' : (alookup (aupdate st.handlers st.nextHandler ⟨path, ls, a⟩) h0).isSome
        = true :=
      isSome_alookup_aupdate _ _ _ _ hh
    obtain ⟨hr, hh3⟩ := Option.isSome_iff_exists.mp hsome'
    rw [attachAndWrap_merge _ _ _ _ _ d h0 hr (by rw [hatlkeep]; exact hd) hv hh3]
    refine ⟨⟨installHidden o st.sequence ls path, getObj_setObjHeap_self _ _ _, ?_⟩, ?_⟩
    · rw [hatlkeep]
      exact hd
    · rw [alookup_aupdate_self]
      rfl

/-- The per-record effect of `Proxies.trace` inside the `create` loop,
on a non-frozen object value with a well-formed `addTraceListener`
state: the call succeeds with a fresh proxy, preserves the graph frame
(presence, frozen flags, handlers, `addTraceListener` well-formedness),
touches no property outside the four bookkeeping names on the traced
object itself, and installs `__path` when it was absent. -/
theorem trace_step_full (path : String) (a : Addr) (o : JSObject) (ls : List ListenerId)
    (st : ProxiesState) (hobj : getObj st a = some o) (hnf : o.frozen = false)
    (hatl : atlPropOK st a) :
    (Proxies.trace path (.vObj a) ls st).1 = .ok (.vProxy a st.nextHandler) ∧
    GraphPres st (Proxies.trace path (.vObj a) ls st).2 ∧
    (∀ b k, (k ∈ specialNames → b ≠ a) →
      lookupProp (Proxies.trace path (.vObj a) ls st).2 b k = lookupProp st b k) ∧
    (lookupProp st a "__path" = none →
      lookupProp (Proxies.trace path (.vObj a) ls st).2 a "__path" =
        some ⟨.vStr path, false, false⟩) := by
  have hlp : ∀ k, lookupProp st a k = alookup o.props k := by
    intro k
    simp [lookupProp, hobj]
  obtain ⟨hseq, hnh, hother, hhandlers, o', ho', hofr, hid, hlsn, hpath, hkeys⟩ :=
    trace_nonfrozen_spec path a o ls st hobj hnf
  have hlp' : ∀ k, lookupProp (Proxies.trace path (.vObj a) ls st).2 a k =
      alookup o'.props k := by
    intro k
    simp [lookupProp, ho']
  have hatl' : alookup o.props "addTraceListener" = none ∨
      ∃ d h0, alookup o.props "addTraceListener" = some d ∧ d.value = .vBoundATL h0 ∧
        (alookup st.handlers h0).isSome = true := by
    unfold atlPropOK at hatl
    rw [hlp] at hatl
    rcases hd : alookup o.props "addTraceListener" with _ | d
    · exact Or.inl rfl
    · rw [hd] at hatl
      obtain ⟨h0, hv, hh⟩ := hatl
      exact Or.inr ⟨d, h0, rfl, hv, hh⟩
  have huntouched : ∀ b k, (k ∈ specialNames → b ≠ a) →
      lookupProp (Proxies.trace path (.vObj a) ls st).2 b k = lookupProp st b k := by
    intro b k hks
    by_cases hba : b = a
    · subst hba
      have hkn : k ∉ specialNames := fun hmem => (hks hmem) rfl
      rw [hlp', hlp, hkeys k hkn]
    · unfold lookupProp
      rw [hother b hba]
  have hatlA : atlPropOK (Proxies.trace path (.vObj a) ls st).2 a := by
    rcases hatl' with hnone | ⟨d, h0, hd, hv, hh⟩
    · obtain ⟨⟨oA, hoA, hprop⟩, hhand⟩ :=
        (trace_atl_dispatch path a o ls st hobj hnf).1 hnone
      have hfinal : lookupProp (Proxies.trace path (.vObj a) ls st).2 a "addTraceListener"
          = some ⟨.vBoundATL st.nextHandler, false, false⟩ := by
        unfold lookupProp
        rw [hoA]
        exact hprop
      unfold atlPropOK
      rw [hfinal]
      exact ⟨st.nextHandler, rfl, by rw [hhand]; rfl⟩
    · obtain ⟨⟨oA, hoA, hprop⟩, hhand⟩ :=
        (trace_atl_dispatch path a o ls st hobj hnf).2 d h0 hd hv hh
      have hfinal : lookupProp (Proxies.trace path (.vObj a) ls st).2 a "addTraceListener"
          = some d := by
        unfold lookupProp
        rw [hoA]
        exact hprop
      unfold atlPropOK
      rw [hfinal]
      exact ⟨h0, hv, hhand⟩
  refine ⟨?_, ⟨?_, hhandlers, ?_⟩, huntouched, ?_⟩
  · exact trace_nonfrozen_ok path a o ls st hobj hnf hatl'
  · intro b ob hob
    by_cases hba : b = a
    · subst hba
      rw [hobj] at hob
      cases hob
      exact ⟨o', ho', by rw [hofr, hnf]⟩
    · exact ⟨ob, by rw [hother b hba]; exact hob, rfl⟩
  · intro b hb
    by_cases hba : b = a
    · subst hba
      exact hatlA
    · unfold atlPropOK at hb ⊢
      have : lookupProp (Proxies.trace path (.vObj a) ls st).2 b "addTraceListener" =
          lookupProp st b "addTraceListener" := by
        unfold lookupProp
        rw [hother b hba]
      rw [this]
      rcases hd : lookupProp st b "addTraceListener" with _ | d
      · trivial
      · rw [hd] at hb
        obtain ⟨h0, hv, hh⟩ := hb
        exact ⟨h0, hv, hhandlers h0 hh⟩
  · intro hnone
    rw [hlp', hpath]
    rw [hlp] at hnone
    rw [hnone]
    rfl

/-- Splicing a value into `parent[parentKey]` touches no other
property. -/
theorem setPropHeap_untouched (st : ProxiesState) (pa : Addr) (po : JSObject)
    (k0 : String) (v : JSVal) (hpo : getObj st pa = some po) :
    ∀ b k, (b, k) ≠ (pa, k0) →
      lookupProp (setObjHeap st pa (po.setProp k0 v)) b k = lookupProp st b k := by
  intro b k hne
  by_cases hbpa : b = pa
  · subst hbpa
    have hk : k ≠ k0 := fun hk => hne (by rw [hk])
    unfold lookupProp
    rw [getObj_setObjHeap_self, hpo]
    exact alookup_setProp_ne po k0 k v hk
  · unfold lookupProp
    rw [getObj_setObjHeap_ne _ _ _ _ (fun h => hbpa h.symm)]

/-- Splicing a value into `parent[parentKey]` (for a key that is not
`addTraceListener`) preserves the graph frame. -/
theorem setPropHeap_graphPres (st : ProxiesState) (pa : Addr) (po : JSObject)
    (k0 : String) (v : JSVal) (hpo : getObj st pa = some po)
    (hk0 : k0 ≠ "addTraceListener") :
    GraphPres st (setObjHeap st pa (po.setProp k0 v)) := by
  refine ⟨?_, ?_, ?_⟩
  · intro b ob hob
    by_cases hbpa : b = pa
    · subst hbpa
      rw [hpo] at hob
      cases hob
      exact ⟨_, getObj_setObjHeap_self _ _ _, setProp_frozen _ _ _⟩
    · exact ⟨ob, by rw [getObj_setObjHeap_ne _ _ _ _ (fun h => hbpa h.symm)]; exact hob, rfl⟩
  · intro h' hh
    rw [handlers_setObjHeap]
    exact hh
  · intro b hb
    unfold atlPropOK at hb ⊢
    have heq : lookupProp (setObjHeap st pa (po.setProp k0 v)) b "addTraceListener" =
        lookupProp st b "addTraceListener" :=
      setPropHeap_untouched st pa po k0 v hpo b _
        (fun hp => hk0 (congrArg Prod.snd hp).symm)
    rw [heq]
    rcases hd : lookupProp st b "addTraceListener" with _ | d
    · trivial
    · rw [hd] at hb
      obtain ⟨h0, hv0, hh0⟩ := hb
      exact ⟨h0, hv0, by rw [handlers_setObjHeap]; exact hh0⟩

/-- One step of the `objectPathEntries.forEach` loop of
`Proxies.create`: under the Graph Walker side conditions the step
succeeds, wraps the record's value, splices the wrap into the parent
edge (when there is one) or into the root accumulator (otherwise),
preserves the graph frame, touches nothing but that edge plus the
bookkeeping names on the record's value, and installs the record's
effective path as `__path` when the value had none. -/
theorem createLoop_cons (ls : List ListenerId) (pfx : String) (e : ObjectPathEntry)
    (rest : List ObjectPathEntry) (root0 : Option JSVal) (st : ProxiesState)
    (hval : entryValueOK st e) (hpar : entryParentOK st e)
    (hkey : e.parentKey ∉ specialNames) :
    ∃ proxy st'',
      Proxies.createLoop ls pfx (e :: rest) root0 st =
        Proxies.createLoop ls pfx rest
          (match e.parent with | some _ => root0 | none => some proxy) st'' ∧
      isWrapOf st e.value proxy ∧
      GraphPres st st'' ∧
      (∀ b k, some (b, k) ≠ entryEdge e → (k ∈ specialNames → e.value ≠ .vObj b) →
        lookupProp st'' b k = lookupProp st b k) ∧
      (∀ pa, e.parent = some pa →
        ∃ d, lookupProp st'' pa e.parentKey = some d ∧ d.value = proxy) ∧
      (∀ a o, e.value = .vObj a → getObj st a = some o → o.frozen = false →
        lookupProp st a "__path" = none →
        lookupProp st'' a "__path" = some ⟨.vStr (effPath pfx e.path), false, false⟩) := by
  obtain ⟨a, o, hv, hobj, hcase⟩ := hval
  have hkATL : e.parentKey ≠ "addTraceListener" := by
    intro h
    exact hkey (by rw [h]; decide)
  have hkPath : e.parentKey ≠ "__path" := by
    intro h
    exact hkey (by rw [h]; decide)
  rcases hcase with hfro | ⟨hnf, hatlok⟩
  · -- frozen value: trace is the identity
    have htr : Proxies.trace (effPath pfx e.path) e.value ls st = (.ok e.value, st) := by
      rw [hv]
      exact trace_frozen_eq _ a o ls st hobj hfro
    rcases hp : e.parent with _ | pa
    · refine ⟨e.value, st, ?_, ?_, GraphPres.refl st, fun b k _ _ => rfl, ?_, ?_⟩
      · simp only [Proxies.createLoop, htr, hp]
      · exact ⟨a, o, hv, hobj, Or.inl ⟨hfro, rfl⟩⟩
      · intro pa hpa
        simp at hpa
      · intro a' o' hv' hobj' hfr' _
        rw [hv] at hv'
        cases hv'
        rw [hobj] at hobj'
        cases hobj'
        rw [hfro] at hfr'
        cases hfr'
    · obtain ⟨po, hpo, hpofr, hwrit⟩ := hpar pa hp
      refine ⟨e.value, setObjHeap st pa (po.setProp e.parentKey e.value), ?_, ?_,
        setPropHeap_graphPres st pa po e.parentKey e.value hpo hkATL, ?_, ?_, ?_⟩
      · simp only [Proxies.createLoop, htr, hp, hpo]
      · exact ⟨a, o, hv, hobj, Or.inl ⟨hfro, rfl⟩⟩
      · intro b k hne _
        refine setPropHeap_untouched st pa po e.parentKey e.value hpo b k ?_
        intro hbk
        apply hne
        rw [entryEdge, hp, hbk]
        rfl
      · intro pa' hpa'
        injection hpa' with hpaeq
        subst hpaeq
        obtain ⟨d, hd, hdv⟩ := alookup_setProp_self po e.parentKey e.value hpofr hwrit
        refine ⟨d, ?_, hdv⟩
        unfold lookupProp
        rw [getObj_setObjHeap_self]
        exact hd
      · intro a' o' hv' hobj' hfr' _
        rw [hv] at hv'
        cases hv'
        rw [hobj] at hobj'
        cases hobj'
        rw [hfro] at hfr'
        cases hfr'
  · -- non-frozen value: trace wraps it in a fresh proxy
    obtain ⟨hok, hGP, huntT, hpathT⟩ :=
      trace_step_full (effPath pfx e.path) a o ls st hobj hnf hatlok
    have htr : Proxies.trace (effPath pfx e.path) e.value ls st =
        (.ok (.vProxy a st.nextHandler),
          (Proxies.trace (effPath pfx e.path) (.vObj a) ls st).2) := by
      rw [hv, ← hok]
    have hwrap : isWrapOf st e.value (.vProxy a st.nextHandler) :=
      ⟨a, o, hv, hobj, Or.inr ⟨hnf, st.nextHandler, rfl⟩⟩
    have hvneq : ∀ b, (e.value ≠ .vObj b) → b ≠ a := by
      intro b hne hba
      exact hne (by rw [hba, hv])
    rcases hp : e.parent with _ | pa
    · refine ⟨.vProxy a st.nextHandler,
        (Proxies.trace (effPath pfx e.path) (.vObj a) ls st).2, ?_, hwrap, hGP, ?_, ?_, ?_⟩
      · simp only [Proxies.createLoop, htr, hp]
      · intro b k _ hsp
        exact huntT b k (fun hmem => hvneq b (hsp hmem))
      · intro pa hpa
        simp at hpa
      · intro a' o' hv' hobj' hfr' hpnone
        rw [hv] at hv'
        cases hv'
        exact hpathT hpnone
    · obtain ⟨po, hpo, hpofr, hwrit⟩ := hpar pa hp
      obtain ⟨po', hpo', hpofr'⟩ := hGP.frozen pa po hpo
      have huntPK : lookupProp (Proxies.trace (effPath pfx e.path) (.vObj a) ls st).2
          pa e.parentKey = lookupProp st pa e.parentKey :=
        huntT pa e.parentKey (fun hmem => absurd hmem hkey)
      have hwrit' : ∀ d, alookup po'.props e.parentKey = some d → d.writable = true := by
        intro d hd
        apply hwrit
        have h1 : lookupProp (Proxies.trace (effPath pfx e.path) (.vObj a) ls st).2
            pa e.parentKey = some d := by
          unfold lookupProp
          rw [hpo']
          exact hd
        rw [huntPK] at h1
        unfold lookupProp at h1
        rw [hpo] at h1
        exact h1
      have hpofr'' : po'.frozen = false := by rw [hpofr', hpofr]
      refine ⟨.vProxy a st.nextHandler,
        setObjHeap (Proxies.trace (effPath pfx e.path) (.vObj a) ls st).2 pa
          (po'.setProp e.parentKey (.vProxy a st.nextHandler)), ?_, hwrap,
        hGP.trans (setPropHeap_graphPres _ pa po' e.parentKey _ hpo' hkATL), ?_, ?_, ?_⟩
      · simp only [Proxies.createLoop, htr, hp, hpo']
      · intro b k hne hsp
        have hset := setPropHeap_untouched _ pa po' e.parentKey
          (.vProxy a st.nextHandler) hpo' b k
          (fun hbk => hne (by rw [entryEdge, hp, hbk]; rfl))
        rw [hset]
        exact huntT b k (fun hmem => hvneq b (hsp hmem))
      · intro pa' hpa'
        injection hpa' with hpaeq
        subst hpaeq
        obtain ⟨d, hd, hdv⟩ := alookup_setProp_self po' e.parentKey
          (.vProxy a st.nextHandler) hpofr'' hwrit'
        refine ⟨d, ?_, hdv⟩
        unfold lookupProp
        rw [getObj_setObjHeap_self]
        exact hd
      · intro a' o' hv' hobj' hfr' hpnone
        rw [hv] at hv'
        cases hv'
        have hset := setPropHeap_untouched _ pa po' e.parentKey
          (.vProxy a st.nextHandler) hpo' a "__path"
          (fun hbk => hkPath (congrArg Prod.snd hbk).symm)
        rw [hset]
        exact hpathT hpnone

theorem entryValueOK_mono {st st' : ProxiesState} (g : GraphPres st st')
    {e : ObjectPathEntry} (h : entryValueOK st e) : entryValueOK st' e := by
  obtain ⟨a, o, hv, hobj, hcase⟩ := h
  obtain ⟨o', hobj', hfr'⟩ := g.frozen a o hobj
  rcases hcase with hfro | ⟨hnf, hatl⟩
  · exact ⟨a, o', hv, hobj', Or.inl (by rw [hfr', hfro])⟩
  · exact ⟨a, o', hv, hobj', Or.inr ⟨by rw [hfr', hnf], g.atl a hatl⟩⟩

theorem isWrapOf_back {st stMid : ProxiesState} (g : GraphPres st stMid)
    {orig v : JSVal} {a : Addr} {o : JSObject}
    (hv : orig = .vObj a) (hobj : getObj st a = some o)
    (hw : isWrapOf stMid orig v) : isWrapOf st orig v := by
  obtain ⟨a2, o2, hv2, hobj2, hcase⟩ := hw
  rw [hv] at hv2
  injection hv2 with ha
  subst ha
  obtain ⟨o2', hobj2', hfr⟩ := g.frozen a o hobj
  rw [hobj2'] at hobj2
  cases hobj2
  rcases hcase with ⟨hfro, hsv⟩ | ⟨hnf, h0, hsv⟩
  · refine ⟨a, o, hv, hobj, Or.inl ⟨?_, hsv⟩⟩
    rw [← hfr]
    exact hfro
  · refine ⟨a, o, hv, hobj, Or.inr ⟨?_, h0, hsv⟩⟩
    rw [← hfr]
    exact hnf

theorem entryEdge_key {e : ObjectPathEntry} {b : Addr} {k : String}
    (h : entryEdge e = some (b, k)) : e.parentKey = k := by
  unfold entryEdge at h
  rcases hp : e.parent with _ | pa
  · rw [hp] at h
    cases h
  · rw [hp] at h
    injection h with h1
    exact (congrArg Prod.snd h1)

/-- The whole `objectPathEntries.forEach` loop of `Proxies.create`,
specified against the initial state: under the Graph Walker side
conditions the loop succeeds; it preserves the graph frame; it leaves
every property it does not own untouched; the root accumulator is
unchanged when no record is the root; every parent edge ends up holding
the wrap of its record's value; the root accumulator ends up holding
the wrap of the (last) root record; and each once-visited non-frozen
value ends up carrying its record's effective path as `__path`. -/
theorem createLoop_spec (ls : List ListenerId) (pfx : String)
    (entries : List ObjectPathEntry) :
    ∀ (root0 : Option JSVal) (st : ProxiesState),
    (∀ e ∈ entries, entryValueOK st e) →
    (∀ e ∈ entries, entryParentOK st e) →
    (∀ e ∈ entries, e.parentKey ∉ specialNames) →
    edgesDistinct entries →
    ∃ root' st', Proxies.createLoop ls pfx entries root0 st = (.ok root', st') ∧
      GraphPres st st' ∧
      (∀ b k, (∀ e ∈ entries, entryEdge e ≠ some (b, k)) →
        (k ∈ specialNames → ∀ e ∈ entries, e.value ≠ .vObj b) →
        lookupProp st' b k = lookupProp st b k) ∧
      ((∀ e ∈ entries, e.parent ≠ none) → root' = root0) ∧
      (∀ e ∈ entries, ∀ pa, e.parent = some pa →
        ∃ d, lookupProp st' pa e.parentKey = some d ∧ isWrapOf st e.value d.value) ∧
      (∀ pre e0 post, entries = pre ++ e0 :: post → e0.parent = none →
        (∀ e ∈ post, e.parent ≠ none) →
        ∃ v, root' = some v ∧ isWrapOf st e0.value v) ∧
      (∀ pre e0 post a o, entries = pre ++ e0 :: post → e0.value = .vObj a →
        getObj st a = some o → o.frozen = false → lookupProp st a "__path" = none →
        (∀ e' ∈ pre, e'.value ≠ .vObj a) → (∀ e' ∈ post, e'.value ≠ .vObj a) →
        lookupProp st' a "__path" =
          some ⟨.vStr (effPath pfx e0.path), false, false⟩) := by
  induction entries with
  | nil =>
    intro root0 st hvals hpars hkeys hdist
    refine ⟨root0, st, rfl, GraphPres.refl st, fun b k _ _ => rfl, fun _ => rfl,
      fun e he => absurd he (List.not_mem_nil e), ?_, ?_⟩
    · intro pre e0 post hsplit _ _
      exact absurd hsplit (by cases pre <;> simp)
    · intro pre e0 post a o hsplit _ _ _ _ _ _
      exact absurd hsplit (by cases pre <;> simp)
  | cons h rest ih =>
    intro root0 st hvals hpars hkeys hdist
    obtain ⟨proxy, stMid, heq, hwrap, hGP, huntS, hedgeS, hpathS⟩ :=
      createLoop_cons ls pfx h rest root0 st (hvals h (by simp)) (hpars h (by simp))
        (hkeys h (by simp))
    obtain ⟨hHrest, hdistRest⟩ := List.pairwise_cons.mp hdist
    have hvals' : ∀ e ∈ rest, entryValueOK stMid e := fun e he =>
      entryValueOK_mono hGP (hvals e (by simp [he]))
    have hpars' : ∀ e ∈ rest, entryParentOK stMid e := by
      intro e he pa hpa
      obtain ⟨po, hpo, hfr, hwr⟩ := hpars e (by simp [he]) pa hpa
      obtain ⟨po', hpo', hfr'⟩ := hGP.frozen pa po hpo
      have huntPK : lookupProp stMid pa e.parentKey = lookupProp st pa e.parentKey := by
        apply huntS
        · intro hcontra
          have hEe : entryEdge e = some (pa, e.parentKey) := by
            rw [entryEdge, hpa]
            rfl
          exact (hHrest e he (pa, e.parentKey) hcontra.symm) hEe
        · intro hmem
          exact absurd hmem (hkeys e (by simp [he]))
      refine ⟨po', hpo', by rw [hfr', hfr], ?_⟩
      intro d hd
      apply hwr
      have h1 : lookupProp stMid pa e.parentKey = some d := by
        unfold lookupProp
        rw [hpo']
        exact hd
      rw [huntPK] at h1
      unfold lookupProp at h1
      rw [hpo] at h1
      exact h1
    have hkeys' : ∀ e ∈ rest, e.parentKey ∉ specialNames := fun e he =>
      hkeys e (by simp [he])
    obtain ⟨root', st', heq', hGP', hunt', hroot', hwraps', hrootsplit', hpath'⟩ :=
      ih (match h.parent with | some _ => root0 | none => some proxy) stMid
        hvals' hpars' hkeys' hdistRest
    refine ⟨root', st', ?_, hGP.trans hGP', ?_, ?_, ?_, ?_, ?_⟩
    · rw [heq]
      exact heq'
    · intro b k hedges hspec
      have h1 := hunt' b k (fun e he => hedges e (by simp [he]))
        (fun hmem e he => hspec hmem e (by simp [he]))
      rw [h1]
      apply huntS b k
      · intro hc
        exact (hedges h (by simp)) hc.symm
      · intro hmem
        exact hspec hmem h (by simp)
    · intro hall
      have hHp := hall h (by simp)
      rcases hhp : h.parent with _ | pa
      · exact absurd hhp hHp
      · have hr := hroot' (fun e he => hall e (by simp [he]))
        rw [hr, hhp]
    · intro e he pa hpa
      rcases List.mem_cons.mp he with rfl | hin
      · obtain ⟨d, hd, hdv⟩ := hedgeS pa hpa
        have hpers : lookupProp st' pa e.parentKey = lookupProp stMid pa e.parentKey := by
          apply hunt'
          · intro e' he' hcontra
            exact (hHrest e' he' (pa, e.parentKey) (by rw [entryEdge, hpa]; rfl)) hcontra
          · intro hmem
            exact absurd hmem (hkeys e (by simp))
        refine ⟨d, by rw [hpers]; exact hd, ?_⟩
        rw [hdv]
        exact hwrap
      · obtain ⟨d, hd, hdv⟩ := hwraps' e hin pa hpa
        obtain ⟨a2, o2, hv2, hobj2, _⟩ := hvals e (by simp [hin])
        exact ⟨d, hd, isWrapOf_back hGP hv2 hobj2 hdv⟩
    · intro pre e0 post hsplit he0 hpost
      rcases pre with _ | ⟨p1, pre'⟩
      · simp only [List.nil_append] at hsplit
        injection hsplit with h1 h2
        subst h1
        subst h2
        have hacc : (match h.parent with | some _ => root0 | none => some proxy)
            = some proxy := by
          rw [he0]
        have hr := hroot' hpost
        rw [hacc] at hr
        exact ⟨proxy, hr, hwrap⟩
      · rw [List.cons_append] at hsplit
        injection hsplit with h1 h2
        subst h1
        obtain ⟨v, hv', hwv⟩ := hrootsplit' pre' e0 post h2 he0 hpost
        have he0mem : e0 ∈ rest := by
          rw [h2]
          simp
        obtain ⟨a2, o2, hv2, hobj2, _⟩ := hvals e0 (by simp [he0mem])
        exact ⟨v, hv', isWrapOf_back hGP hv2 hobj2 hwv⟩
    · intro pre e0 post a o hsplit hve0 hobj0 hfr0 hpn0 hpre hpost
      rcases pre with _ | ⟨p1, pre'⟩
      · simp only [List.nil_append] at hsplit
        injection hsplit with h1 h2
        subst h1
        subst h2
        have hinst := hpathS a o hve0 hobj0 hfr0 hpn0
        have hpers : lookupProp st' a "__path" = lookupProp stMid a "__path" := by
          apply hunt'
          · intro e' he' hcontra
            exact (hkeys' e' he') (by rw [entryEdge_key hcontra]; decide)
          · intro _ e' he'
            exact hpost e' he'
        rw [hpers]
        exact hinst
      · rw [List.cons_append] at hsplit
        injection hsplit with h1 h2
        subst h1
        obtain ⟨oM, hoM, hfrM⟩ := hGP.frozen a o hobj0
        have hpnM : lookupProp stMid a "__path" = none := by
          have hu : lookupProp stMid a "__path" = lookupProp st a "__path" := by
            apply huntS
            · intro hcontra
              exact (hkeys h (by simp)) (by rw [entryEdge_key hcontra.symm]; decide)
            · intro _
              exact hpre h (by simp)
          rw [hu]
          exact hpn0
        apply hpath' pre' e0 post a oM h2 hve0 hoM (by rw [hfrM, hfr0]) hpnM
        · intro e' he'
          exact hpre e' (by simp [he'])
        · intro e' he'
          exact hpost e' he'

/-- `Proxies.trace "a" (vObj 0) [7]` run from `freshState` produces
`tracedState` and a proxy backed by handler `0`. -/
theorem tracedState_eq :
    Proxies.trace "a" (.vObj 0) [7] freshState = (.ok (.vProxy 0 0), tracedState) := by
  rfl

/-- C1: for every value that is not an object, both `Proxies.create`
and `Proxies.trace` raise the NotAnObject error, and the state — the
whole object graph — is exactly as it was: the error is raised before
any parent reference is rewritten or any hidden field is defined. -/
theorem c1_create_trace_notAnObject (value : JSVal) (path : String)
    (traceListeners : List ListenerId) (optsPathPrefix : Option String)
    (objectPathEntries : List ObjectPathEntry) (st : ProxiesState)
    (h : typeof value ≠ "object") :
    Proxies.create value traceListeners optsPathPrefix objectPathEntries st
      = (.error .notAnObject, st) ∧
    Proxies.trace path value traceListeners st = (.error .notAnObject, st) := by
  refine ⟨?_, trace_notObject_eq path value traceListeners st h⟩
  unfold Proxies.create
  simp [h]

/-- C1 witness: the number `3` is rejected by both entry points with the
heap untouched. -/
theorem c1_witness :
    typeof (.vNum 3) ≠ "object" ∧
    (Proxies.create (.vNum 3) [] none [] freshState = (.error .notAnObject, freshState) ∧
     Proxies.trace "a" (.vNum 3) [] freshState = (.error .notAnObject, freshState)) :=
  ⟨by decide, c1_create_trace_notAnObject (.vNum 3) "a" [] none [] freshState (by decide)⟩

/-- C4: for every frozen object value, `Proxies.trace` returns the very
same reference with the whole state untouched (so no hidden field is
added anywhere) and raises no error. -/
theorem c4_trace_frozen_passthrough (path : String) (a : Addr) (o : JSObject)
    (traceListeners : List ListenerId) (st : ProxiesState)
    (hobj : getObj st a = some o) (hfrozen : o.frozen = true) :
    Proxies.trace path (.vObj a) traceListeners st = (.ok (.vObj a), st) :=
  trace_frozen_eq path a o traceListeners st hobj hfrozen

/-- C4 witness: tracing the frozen object of `frozenState` returns it
unchanged. -/
theorem c4_witness :
    getObj frozenState 0 = some ⟨true, [("k", ⟨.vNum 1, true, true⟩)]⟩ ∧
    (⟨true, [("k", ⟨.vNum 1, true, true⟩)]⟩ : JSObject).frozen = true ∧
    Proxies.trace "p" (.vObj 0) [1] frozenState = (.ok (.vObj 0), frozenState) :=
  ⟨rfl, rfl, c4_trace_frozen_passthrough "p" 0 _ [1] frozenState rfl rfl⟩

/-- C9: tracing a frozen object leaves the process-wide sequence
counter unchanged — the frozen check precedes identifier allocation —
and a later trace of any value from the resulting state behaves exactly
as if the frozen call had never happened (in particular it receives the
same identifier). -/
theorem c9_trace_frozen_no_sequence_effect (path path' : String) (a : Addr) (o : JSObject)
    (value' : JSVal) (ls ls' : List ListenerId) (st : ProxiesState)
    (hobj : getObj st a = some o) (hfrozen : o.frozen = true) :
    (Proxies.trace path (.vObj a) ls st).2.sequence = st.sequence ∧
    Proxies.trace path' value' ls' (Proxies.trace path (.vObj a) ls st).2
      = Proxies.trace path' value' ls' st := by
  rw [trace_frozen_eq path a o ls st hobj hfrozen]
  exact ⟨rfl, rfl⟩

/-- C9 witness: after tracing the frozen object of `frozenState`
(sequence `5`), tracing the plain object at address `1` yields exactly
what it would have yielded without the frozen call. -/
theorem c9_witness :
    getObj frozenState 0 = some ⟨true, [("k", ⟨.vNum 1, true, true⟩)]⟩ ∧
    (⟨true, [("k", ⟨.vNum 1, true, true⟩)]⟩ : JSObject).frozen = true ∧
    ((Proxies.trace "p" (.vObj 0) [2] frozenState).2.sequence = frozenState.sequence ∧
     Proxies.trace "q" (.vObj 1) [3] (Proxies.trace "p" (.vObj 0) [2] frozenState).2
       = Proxies.trace "q" (.vObj 1) [3] frozenState) :=
  ⟨rfl, rfl,
    c9_trace_frozen_no_sequence_effect "p" "q" 0 _ (.vObj 1) [2] [3] frozenState rfl rfl⟩

/-- C3: `Proxies.trace` defines each of the three hidden attributes on
a (non-frozen) object if and only if it is not already present: the
resulting property is the original descriptor when one existed and the
freshly built non-enumerable, non-writable one otherwise.  In
particular, on a value that already carries them, re-tracing with any
other path or listener list leaves the original identifier,
listener-list reference, and path unchanged. -/
theorem c3_retrace_idempotent_hidden_fields (path' : String) (a : Addr) (o : JSObject)
    (ls' : List ListenerId) (st : ProxiesState)
    (hobj : getObj st a = some o) (hnf : o.frozen = false) :
    ∃ o', getObj (Proxies.trace path' (.vObj a) ls' st).2 a = some o' ∧
      alookup o'.props "__traceIdentifier" =
        some ((alookup o.props "__traceIdentifier").getD ⟨.vNum st.sequence, false, false⟩) ∧
      alookup o'.props "__traceListeners" =
        some ((alookup o.props "__traceListeners").getD ⟨.vListeners ls', false, false⟩) ∧
      alookup o'.props "__path" =
        some ((alookup o.props "__path").getD ⟨.vStr path', false, false⟩) ∧
      (∀ d, alookup o.props "__traceIdentifier" = some d →
        alookup o'.props "__traceIdentifier" = some d) ∧
      (∀ d, alookup o.props "__traceListeners" = some d →
        alookup o'.props "__traceListeners" = some d) ∧
      (∀ d, alookup o.props "__path" = some d → alookup o'.props "__path" = some d) := by
  obtain ⟨-, -, -, -, o', ho', -, hid, hls, hpath, -⟩ :=
    trace_nonfrozen_spec path' a o ls' st hobj hnf
  refine ⟨o', ho', hid, hls, hpath, ?_, ?_, ?_⟩
  · intro d hd
    rw [hid, hd]
    rfl
  · intro d hd
    rw [hls, hd]
    rfl
  · intro d hd
    rw [hpath, hd]
    rfl

/-- C3 witness: re-tracing the already-traced object of `tracedState`
under path `"b"` with listener list `[9]` keeps the stored identifier
`0`, the stored listener array `[7]`, and the stored path `"a"`. -/
theorem c3_witness :
    getObj tracedState 0 =
      some ⟨false,
        [("__traceIdentifier", ⟨.vNum 0, false, false⟩),
         ("__traceListeners", ⟨.vListeners [7], false, false⟩),
         ("__path", ⟨.vStr "a", false, false⟩),
         ("addTraceListener", ⟨.vBoundATL 0, false, false⟩)]⟩ ∧
    (⟨false,
        [("__traceIdentifier", ⟨.vNum 0, false, false⟩),
         ("__traceListeners", ⟨.vListeners [7], false, false⟩),
         ("__path", ⟨.vStr "a", false, false⟩),
         ("addTraceListener", ⟨.vBoundATL 0, false, false⟩)]⟩ : JSObject).frozen = false ∧
    ∃ o', getObj (Proxies.trace "b" (.vObj 0) [9] tracedState).2 0 = some o' ∧
      alookup o'.props "__traceIdentifier" =
        some ((alookup
          [("__traceIdentifier", (⟨.vNum 0, false, false⟩ : PropDesc)),
           ("__traceListeners", ⟨.vListeners [7], false, false⟩),
           ("__path", ⟨.vStr "a", false, false⟩),
           ("addTraceListener", ⟨.vBoundATL 0, false, false⟩)]
          "__traceIdentifier").getD ⟨.vNum tracedState.sequence, false, false⟩) ∧
      alookup o'.props "__traceListeners" =
        some ((alookup
          [("__traceIdentifier", (⟨.vNum 0, false, false⟩ : PropDesc)),
           ("__traceListeners", ⟨.vListeners [7], false, false⟩),
           ("__path", ⟨.vStr "a", false, false⟩),
           ("addTraceListener", ⟨.vBoundATL 0, false, false⟩)]
          "__traceListeners").getD ⟨.vListeners [9], false, false⟩) ∧
      alookup o'.props "__path" =
        some ((alookup
          [("__traceIdentifier", (⟨.vNum 0, false, false⟩ : PropDesc)),
           ("__traceListeners", ⟨.vListeners [7], false, false⟩),
           ("__path", ⟨.vStr "a", false, false⟩),
           ("addTraceListener", ⟨.vBoundATL 0, false, false⟩)]
          "__path").getD ⟨.vStr "b", false, false⟩) ∧
      (∀ d, alookup
          [("__traceIdentifier", (⟨.vNum 0, false, false⟩ : PropDesc)),
           ("__traceListeners", ⟨.vListeners [7], false, false⟩),
           ("__path", ⟨.vStr "a", false, false⟩),
           ("addTraceListener", ⟨.vBoundATL 0, false, false⟩)]
          "__traceIdentifier" = some d →
        alookup o'.props "__traceIdentifier" = some d) ∧
      (∀ d, alookup
          [("__traceIdentifier", (⟨.vNum 0, false, false⟩ : PropDesc)),
           ("__traceListeners", ⟨.vListeners [7], false, false⟩),
           ("__path", ⟨.vStr "a", false, false⟩),
           ("addTraceListener", ⟨.vBoundATL 0, false, false⟩)]
          "__traceListeners" = some d →
        alookup o'.props "__traceListeners" = some d) ∧
      (∀ d, alookup
          [("__traceIdentifier", (⟨.vNum 0, false, false⟩ : PropDesc)),
           ("__traceListeners", ⟨.vListeners [7], false, false⟩),
           ("__path", ⟨.vStr "a", false, false⟩),
           ("addTraceListener", ⟨.vBoundATL 0, false, false⟩)]
          "__path" = some d →
        alookup o'.props "__path" = some d) :=
  ⟨rfl, rfl, c3_retrace_idempotent_hidden_fields "b" 0 _ [9] tracedState rfl rfl⟩

/-- C5: the listener-attachment dispatch of `Proxies.trace`.  If the
value already exposes an `addTraceListener` method (bound to an existing
handler `h0`), the new listener list is appended at that handler and the
property is left exactly as it was — no new `addTraceListener` is
defined.  Otherwise, the freshly built handler's registration method is
installed as the hidden, non-enumerable, non-writable
`addTraceListener` property, and that handler is the one this call
registered under `st.nextHandler`. -/
theorem c5_addTraceListener_dispatch (path : String) (a : Addr) (o : JSObject)
    (ls : List ListenerId) (st : ProxiesState)
    (hobj : getObj st a = some o) (hnf : o.frozen = false) :
    (∀ d h0 hr, alookup o.props "addTraceListener" = some d →
      d.value = .vBoundATL h0 → h0 ≠ st.nextHandler →
      alookup st.handlers h0 = some hr →
      (∃ o', getObj (Proxies.trace path (.vObj a) ls st).2 a = some o' ∧
        alookup o'.props "addTraceListener" = some d) ∧
      alookup (Proxies.trace path (.vObj a) ls st).2.handlers h0 =
        some { hr with listeners := hr.listeners ++ ls }) ∧
    (alookup o.props "addTraceListener" = none →
      ∃ o', getObj (Proxies.trace path (.vObj a) ls st).2 a = some o' ∧
        alookup o'.props "addTraceListener" =
          some ⟨.vBoundATL st.nextHandler, false, false⟩ ∧
        alookup (Proxies.trace path (.vObj a) ls st).2.handlers st.nextHandler =
          some ⟨path, ls, a⟩) := by
  rw [trace_nonfrozen_eq path a o ls st hobj hnf]
  have hatlkeep : alookup (installHidden o st.sequence ls path).props "addTraceListener" =
      alookup o.props "addTraceListener" :=
    alookup_installHidden_ne _ _ _ _ _ (by decide)
  constructor
  · intro d h0 hr hd hv hne hh
    have hh3 : alookup (aupdate st.handlers st.nextHandler ⟨path, ls, a⟩) h0 = some hr := by
      rw [alookup_aupdate_ne _ _ _ _ (fun he => hne he.symm)]
      exact hh
    rw [attachAndWrap_merge _ _ _ _ _ d h0 hr (by rw [hatlkeep]; exact hd) hv hh3]
    refine ⟨⟨installHidden o st.sequence ls path, ?_, ?_⟩, ?_⟩
    · exact getObj_setObjHeap_self _ _ _
    · rw [hatlkeep]
      exact hd
    · exact alookup_aupdate_self _ _ _
  · intro hnone
    rw [attachAndWrap_absent _ _ _ _ _ (by rw [hatlkeep]; exact hnone)]
    refine ⟨_, getObj_setObjHeap_self _ _ _, alookup_aupdate_self _ _ _, ?_⟩
    rw [handlers_setObjHeap, handlers_setObjHeap]
    exact alookup_aupdate_self _ _ _

/-- C5 witness: the fresh arm at `freshState` (no `addTraceListener`
yet) and the merge arm at `tracedState` (method bound to handler `0`),
both through `c5_addTraceListener_dispatch`. -/
theorem c5_witness :
    (getObj freshState 0 = some ⟨false, []⟩ ∧
     (⟨false, []⟩ : JSObject).frozen = false ∧
     alookup ([] : List (String × PropDesc)) "addTraceListener" = none ∧
     ∃ o', getObj (Proxies.trace "a" (.vObj 0) [7] freshState).2 0 = some o' ∧
       alookup o'.props "addTraceListener" =
         some ⟨.vBoundATL freshState.nextHandler, false, false⟩ ∧
       alookup (Proxies.trace "a" (.vObj 0) [7] freshState).2.handlers
           freshState.nextHandler = some ⟨"a", [7], 0⟩) ∧
    ((0 : HandlerId) ≠ tracedState.nextHandler ∧
     alookup tracedState.handlers 0 = some ⟨"a", [7], 0⟩ ∧
     (∃ o', getObj (Proxies.trace "b" (.vObj 0) [9] tracedState).2 0 = some o' ∧
       alookup o'.props "addTraceListener" = some ⟨.vBoundATL 0, false, false⟩) ∧
     alookup (Proxies.trace "b" (.vObj 0) [9] tracedState).2.handlers 0 =
       some ⟨"a", [7] ++ [9], 0⟩) :=
  ⟨⟨rfl, rfl, rfl,
    (c5_addTraceListener_dispatch "a" 0 ⟨false, []⟩ [7] freshState rfl rfl).2 rfl⟩,
   ⟨by decide, rfl,
    ((c5_addTraceListener_dispatch "b" 0 _ [9] tracedState rfl rfl).1
      ⟨.vBoundATL 0, false, false⟩ 0 ⟨"a", [7], 0⟩ rfl rfl (by decide) rfl).1,
    ((c5_addTraceListener_dispatch "b" 0 _ [9] tracedState rfl rfl).1
      ⟨.vBoundATL 0, false, false⟩ 0 ⟨"a", [7], 0⟩ rfl rfl (by decide) rfl).2⟩⟩

/-- C2, counterexample: `tracedState` is the state after one trace of
the object at address `0` (see `tracedState_eq`): exactly one handler
(id `0`) and one layer (`vProxy 0 0`) exist for it.  Tracing the same
object again constructs a SECOND `TraceHandler` (id `1`, targeting the
same address) and returns a SECOND, distinct `Proxy` backed by it — the
"already has addTraceListener" check does not prevent either; it only
prevents installing a second registration method. -/
theorem c2_counterexample :
    (Proxies.trace "b" (.vObj 0) [9] tracedState).1 = .ok (.vProxy 0 1) ∧
    (Proxies.trace "b" (.vObj 0) [9] tracedState).2.handlers =
      [(0, ⟨"a", [7, 9], 0⟩), (1, ⟨"b", [9], 0⟩)] ∧
    (Proxies.trace "b" (.vObj 0) [9] tracedState).2.nextHandler = 2 ∧
    (.vProxy 0 1 : JSVal) ≠ .vProxy 0 0 :=
  ⟨rfl, rfl, rfl, by decide⟩

/-- C2 (amended): for an already-traced object (one exposing a bound
`addTraceListener`), re-tracing installs no second registration method
— the property keeps its original descriptor and the new listeners are
handed to the existing handler — but each call still constructs a fresh
`TraceHandler` and returns a fresh `Proxy` backed by it, so a second
interception layer and handler do come into existence; they are merely
never installed on the value. -/
theorem c2_amended_single_registration (path : String) (a : Addr) (o : JSObject)
    (ls : List ListenerId) (st : ProxiesState) (d : PropDesc) (h0 : HandlerId)
    (hr : TraceHandlerRec)
    (hobj : getObj st a = some o) (hnf : o.frozen = false)
    (hd : alookup o.props "addTraceListener" = some d)
    (hv : d.value = .vBoundATL h0) (hne : h0 ≠ st.nextHandler)
    (hh : alookup st.handlers h0 = some hr) :
    (Proxies.trace path (.vObj a) ls st).1 = .ok (.vProxy a st.nextHandler) ∧
    (Proxies.trace path (.vObj a) ls st).2.nextHandler = st.nextHandler + 1 ∧
    alookup (Proxies.trace path (.vObj a) ls st).2.handlers st.nextHandler =
      some ⟨path, ls, a⟩ ∧
    alookup (Proxies.trace path (.vObj a) ls st).2.handlers h0 =
      some { hr with listeners := hr.listeners ++ ls } ∧
    (∃ o', getObj (Proxies.trace path (.vObj a) ls st).2 a = some o' ∧
      alookup o'.props "addTraceListener" = some d) := by
  rw [trace_nonfrozen_eq path a o ls st hobj hnf]
  have hatlkeep : alookup (installHidden o st.sequence ls path).props "addTraceListener" =
      alookup o.props "addTraceListener" :=
    alookup_installHidden_ne _ _ _ _ _ (by decide)
  have hh3 : alookup (aupdate st.handlers st.nextHandler ⟨path, ls, a⟩) h0 = some hr := by
    rw [alookup_aupdate_ne _ _ _ _ (fun he => hne he.symm)]
    exact hh
  rw [attachAndWrap_merge _ _ _ _ _ d h0 hr (by rw [hatlkeep]; exact hd) hv hh3]
  refine ⟨rfl, rfl, ?_, alookup_aupdate_self _ _ _, ?_⟩
  · rw [handlers_setObjHeap, alookup_aupdate_ne _ _ _ _ hne]
    show alookup (aupdate st.handlers st.nextHandler ⟨path, ls, a⟩) st.nextHandler =
      some ⟨path, ls, a⟩
    exact alookup_aupdate_self _ _ _
  · refine ⟨installHidden o st.sequence ls path, getObj_setObjHeap_self _ _ _, ?_⟩
    rw [hatlkeep]
    exact hd

/-- C2 witness: the amended theorem at `tracedState`. -/
theorem c2_witness :
    getObj tracedState 0 =
      some ⟨false,
        [("__traceIdentifier", ⟨.vNum 0, false, false⟩),
         ("__traceListeners", ⟨.vListeners [7], false, false⟩),
         ("__path", ⟨.vStr "a", false, false⟩),
         ("addTraceListener", ⟨.vBoundATL 0, false, false⟩)]⟩ ∧
    (0 : HandlerId) ≠ tracedState.nextHandler ∧
    alookup tracedState.handlers 0 = some ⟨"a", [7], 0⟩ ∧
    ((Proxies.trace "b" (.vObj 0) [9] tracedState).1 = .ok (.vProxy 0 tracedState.nextHandler) ∧
     (Proxies.trace "b" (.vObj 0) [9] tracedState).2.nextHandler =
       tracedState.nextHandler + 1 ∧
     alookup (Proxies.trace "b" (.vObj 0) [9] tracedState).2.handlers
       tracedState.nextHandler = some ⟨"b", [9], 0⟩ ∧
     alookup (Proxies.trace "b" (.vObj 0) [9] tracedState).2.handlers 0 =
       some ⟨"a", [7] ++ [9], 0⟩ ∧
     (∃ o', getObj (Proxies.trace "b" (.vObj 0) [9] tracedState).2 0 = some o' ∧
       alookup o'.props "addTraceListener" = some ⟨.vBoundATL 0, false, false⟩)) :=
  ⟨rfl, by decide, rfl,
    c2_amended_single_registration "b" 0 _ [9] tracedState
      ⟨.vBoundATL 0, false, false⟩ 0 ⟨"a", [7], 0⟩ rfl rfl rfl rfl (by decide) rfl⟩

/-- C7: every invocation of `Proxies.trace` on a non-frozen object
advances the process-wide sequence counter by exactly one (also on the
merge path, where the freshly drawn identifier is discarded); when the
object had no identifier yet, it receives the pre-call counter value;
and the counter keeps all stored identifiers unique: boundedness (every
stored identifier is below the counter) and pairwise distinctness are
preserved, so identifiers are unique across the process lifetime. -/
theorem c7_sequence_counter (path : String) (a : Addr) (o : JSObject)
    (ls : List ListenerId) (st : ProxiesState)
    (hobj : getObj st a = some o) (hnf : o.frozen = false)
    (hb : idsBounded st) (hi : idsInjective st) :
    ((Proxies.trace path (.vObj a) ls st).2.sequence = st.sequence + 1) ∧
    (alookup o.props "__traceIdentifier" = none →
      storedTraceId (Proxies.trace path (.vObj a) ls st).2 a = some (st.sequence : Int)) ∧
    idsBounded (Proxies.trace path (.vObj a) ls st).2 ∧
    idsInjective (Proxies.trace path (.vObj a) ls st).2 := by
  obtain ⟨hseq, -, hother, -, o', ho', -, hid, -, -, -⟩ :=
    trace_nonfrozen_spec path a o ls st hobj hnf
  have hstored_ne : ∀ b, b ≠ a →
      storedTraceId (Proxies.trace path (.vObj a) ls st).2 b = storedTraceId st b := by
    intro b hbne
    simp only [storedTraceId, hother b hbne]
  have hstored_a_none : alookup o.props "__traceIdentifier" = none →
      storedTraceId (Proxies.trace path (.vObj a) ls st).2 a = some (st.sequence : Int) := by
    intro hnone
    simp only [storedTraceId, ho', hid, hnone, Option.getD_none]
  have hstored_a_some : ∀ d, alookup o.props "__traceIdentifier" = some d →
      storedTraceId (Proxies.trace path (.vObj a) ls st).2 a = storedTraceId st a := by
    intro d hd
    simp only [storedTraceId, ho', hid, hd, hobj, Option.getD_some]
  refine ⟨hseq, hstored_a_none, ?_, ?_⟩
  · intro b n hbn
    rw [hseq]
    by_cases hba : b = a
    · subst hba
      rcases hd : alookup o.props "__traceIdentifier" with _ | d
      · rw [hstored_a_none hd] at hbn
        have hn := Option.some.inj hbn
        push_cast
        omega
      · rw [hstored_a_some d hd] at hbn
        have := hb b n hbn
        push_cast at this ⊢
        omega
    · rw [hstored_ne b hba] at hbn
      have := hb b n hbn
      push_cast at this ⊢
      omega
  · intro b c m n hbm hcn hbc
    by_cases hba : b = a
    · subst hba
      rw [hstored_ne c (Ne.symm hbc)] at hcn
      rcases hd : alookup o.props "__traceIdentifier" with _ | d
      · rw [hstored_a_none hd] at hbm
        have hm := Option.some.inj hbm
        have hnlt := hb c n hcn
        intro hmn
        omega
      · rw [hstored_a_some d hd] at hbm
        exact hi b c m n hbm hcn hbc
    · by_cases hca : c = a
      · subst hca
        rw [hstored_ne b hba] at hbm
        rcases hd : alookup o.props "__traceIdentifier" with _ | d
        · rw [hstored_a_none hd] at hcn
          have hn := Option.some.inj hcn
          have hmlt := hb b m hbm
          intro hmn
          omega
        · rw [hstored_a_some d hd] at hcn
          exact hi b c m n hbm hcn hbc
      · rw [hstored_ne b hba] at hbm
        rw [hstored_ne c hca] at hcn
        exact hi b c m n hbm hcn hbc

/-- C7 witness: the theorem at `freshState` (empty identifier store). -/
theorem c7_witness :
    getObj freshState 0 = some ⟨false, []⟩ ∧
    (⟨false, []⟩ : JSObject).frozen = false ∧
    idsBounded freshState ∧ idsInjective freshState ∧
    (((Proxies.trace "a" (.vObj 0) [7] freshState).2.sequence = freshState.sequence + 1) ∧
     (alookup ([] : List (String × PropDesc)) "__traceIdentifier" = none →
       storedTraceId (Proxies.trace "a" (.vObj 0) [7] freshState).2 0 =
         some (freshState.sequence : Int)) ∧
     idsBounded (Proxies.trace "a" (.vObj 0) [7] freshState).2 ∧
     idsInjective (Proxies.trace "a" (.vObj 0) [7] freshState).2) := by
  have hb : idsBounded freshState := by
    intro a n h
    by_cases h0 : (0 : Addr) = a
    · simp [storedTraceId, getObj, freshState, alookup, h0] at h
    · simp [storedTraceId, getObj, freshState, alookup, h0] at h
  have hi : idsInjective freshState := by
    intro a b m n ha hb' hab
    by_cases h0 : (0 : Addr) = a
    · simp [storedTraceId, getObj, freshState, alookup, h0] at ha
    · simp [storedTraceId, getObj, freshState, alookup, h0] at ha
  exact ⟨rfl, rfl, hb, hi,
    c7_sequence_counter "a" 0 ⟨false, []⟩ [7] freshState rfl rfl hb hi⟩

/-- C6: for every graph-walk record `Proxies.create` processes, a
record with a parent gets `parent[parentKey]` overwritten with the
wrapped (traced) value of the record, and the (last) record without a
parent — the root, unique under the Graph Walker contract — has its
wrapped value returned by `create`. -/
theorem c6_create_rewires_and_returns_root
    (target : JSVal) (ls : List ListenerId) (optsPathPrefix : Option String)
    (entries : List ObjectPathEntry) (st : ProxiesState)
    (htype : typeof target = "object")
    (hvals : ∀ e ∈ entries, entryValueOK st e)
    (hpars : ∀ e ∈ entries, entryParentOK st e)
    (hkeys : ∀ e ∈ entries, e.parentKey ∉ specialNames)
    (hdist : edgesDistinct entries)
    (pre : List ObjectPathEntry) (e0 : ObjectPathEntry) (post : List ObjectPathEntry)
    (hsplit : entries = pre ++ e0 :: post) (he0 : e0.parent = none)
    (hpost : ∀ e ∈ post, e.parent ≠ none) :
    ∃ v st', Proxies.create target ls optsPathPrefix entries st = (.ok (some v), st') ∧
      isWrapOf st e0.value v ∧
      (∀ e ∈ entries, ∀ pa, e.parent = some pa →
        ∃ d, lookupProp st' pa e.parentKey = some d ∧ isWrapOf st e.value d.value) := by
  have hcreate : Proxies.create target ls optsPathPrefix entries st =
      Proxies.createLoop ls (optsPathPrefix.getD "") entries none st := by
    unfold Proxies.create
    rw [if_neg (by simp [htype])]
  obtain ⟨root', st', heq, -, -, -, hwraps, hrootsplit, -⟩ :=
    createLoop_spec ls (optsPathPrefix.getD "") entries none st hvals hpars hkeys hdist
  obtain ⟨v, hv, hwv⟩ := hrootsplit pre e0 post hsplit he0 hpost
  refine ⟨v, st', ?_, hwv, hwraps⟩
  rw [hcreate, heq, hv]

/-- C6 witness: tracing the two-node graph of `twoNodeState` returns a
wrap of the root object `0` and rewires `0["child"]` to a wrap of the
child object `1`. -/
theorem c6_witness :
    typeof (.vObj 0) = "object" ∧
    (∀ e ∈ twoNodeEntries, entryValueOK twoNodeState e) ∧
    (∀ e ∈ twoNodeEntries, entryParentOK twoNodeState e) ∧
    (∀ e ∈ twoNodeEntries, e.parentKey ∉ specialNames) ∧
    edgesDistinct twoNodeEntries ∧
    twoNodeEntries = [] ++ (⟨"", .vObj 0, none, ""⟩ : ObjectPathEntry) ::
      [⟨"child", .vObj 1, some 0, "child"⟩] ∧
    (⟨"", .vObj 0, none, ""⟩ : ObjectPathEntry).parent = none ∧
    (∀ e ∈ [(⟨"child", .vObj 1, some 0, "child"⟩ : ObjectPathEntry)], e.parent ≠ none) ∧
    ∃ v st', Proxies.create (.vObj 0) [7] none twoNodeEntries twoNodeState =
        (.ok (some v), st') ∧
      isWrapOf twoNodeState (.vObj 0) v ∧
      (∀ e ∈ twoNodeEntries, ∀ pa, e.parent = some pa →
        ∃ d, lookupProp st' pa e.parentKey = some d ∧
          isWrapOf twoNodeState e.value d.value) := by
  have hvals : ∀ e ∈ twoNodeEntries, entryValueOK twoNodeState e := by
    intro e he
    rcases List.mem_cons.mp he with rfl | he2
    · exact ⟨0, ⟨false, [("child", ⟨.vObj 1, true, true⟩)]⟩, rfl, rfl,
        Or.inr ⟨rfl, trivial⟩⟩
    · rcases List.mem_singleton.mp he2 with rfl
      exact ⟨1, ⟨false, []⟩, rfl, rfl, Or.inr ⟨rfl, trivial⟩⟩
  have hpars : ∀ e ∈ twoNodeEntries, entryParentOK twoNodeState e := by
    intro e he
    rcases List.mem_cons.mp he with rfl | he2
    · intro pa hpa
      cases hpa
    · rcases List.mem_singleton.mp he2 with rfl
      intro pa hpa
      injection hpa with hpa'
      subst hpa'
      refine ⟨⟨false, [("child", ⟨.vObj 1, true, true⟩)]⟩, rfl, rfl, ?_⟩
      intro d hd
      injection hd with hd'
      rw [← hd']
  have hkeys : ∀ e ∈ twoNodeEntries, e.parentKey ∉ specialNames := by
    intro e he
    rcases List.mem_cons.mp he with rfl | he2
    · decide
    · rcases List.mem_singleton.mp he2 with rfl
      decide
  have hdist : edgesDistinct twoNodeEntries := by
    refine List.Pairwise.cons ?_ (List.pairwise_singleton _ _)
    intro e' he' p hp
    simp [entryEdge] at hp
  have hpost : ∀ e ∈ [(⟨"child", .vObj 1, some 0, "child"⟩ : ObjectPathEntry)],
      e.parent ≠ none := by
    intro e he
    rcases List.mem_singleton.mp he with rfl
    simp
  exact ⟨rfl, hvals, hpars, hkeys, hdist, rfl, rfl, hpost,
    c6_create_rewires_and_returns_root (.vObj 0) [7] none twoNodeEntries twoNodeState
      rfl hvals hpars hkeys hdist [] ⟨"", .vObj 0, none, ""⟩
      [⟨"child", .vObj 1, some 0, "child"⟩] rfl rfl hpost⟩

/-- C8: for every record `Proxies.create` processes (here: a once-
visited, non-frozen, not-yet-traced node), the path stored on the node
is the join of `pathPrefix` and the record's relative path when the
`pathPrefix` option is a non-empty string, and the relative path
unchanged when the option is omitted or empty. -/
theorem c8_create_path_prefixing
    (target : JSVal) (ls : List ListenerId) (optsPathPrefix : Option String)
    (entries : List ObjectPathEntry) (st : ProxiesState)
    (htype : typeof target = "object")
    (hvals : ∀ e ∈ entries, entryValueOK st e)
    (hpars : ∀ e ∈ entries, entryParentOK st e)
    (hkeys : ∀ e ∈ entries, e.parentKey ∉ specialNames)
    (hdist : edgesDistinct entries)
    (pre : List ObjectPathEntry) (e0 : ObjectPathEntry) (post : List ObjectPathEntry)
    (a : Addr) (o : JSObject)
    (hsplit : entries = pre ++ e0 :: post) (hve0 : e0.value = .vObj a)
    (hobj0 : getObj st a = some o) (hfr0 : o.frozen = false)
    (hpn0 : lookupProp st a "__path" = none)
    (hpre : ∀ e' ∈ pre, e'.value ≠ .vObj a)
    (hpost : ∀ e' ∈ post, e'.value ≠ .vObj a) :
    ∃ root' st', Proxies.create target ls optsPathPrefix entries st = (.ok root', st') ∧
      (∀ p, optsPathPrefix = some p → p ≠ "" →
        lookupProp st' a "__path" =
          some ⟨.vStr (Paths.create p e0.path), false, false⟩) ∧
      ((optsPathPrefix = none ∨ optsPathPrefix = some "") →
        lookupProp st' a "__path" = some ⟨.vStr e0.path, false, false⟩) := by
  have hcreate : Proxies.create target ls optsPathPrefix entries st =
      Proxies.createLoop ls (optsPathPrefix.getD "") entries none st := by
    unfold Proxies.create
    rw [if_neg (by simp [htype])]
  obtain ⟨root', st', heq, -, -, -, -, -, hpath⟩ :=
    createLoop_spec ls (optsPathPrefix.getD "") entries none st hvals hpars hkeys hdist
  have hstored := hpath pre e0 post a o hsplit hve0 hobj0 hfr0 hpn0 hpre hpost
  refine ⟨root', st', by rw [hcreate, heq], ?_, ?_⟩
  · intro p hp hpne
    rw [hstored, hp]
    simp only [Option.getD_some]
    rw [effPath, if_pos hpne]
  · intro hcase
    rw [hstored]
    rcases hcase with hnone | hempty
    · rw [hnone]
      simp only [Option.getD_none]
      rw [effPath, if_neg (by simp)]
    · rw [hempty]
      simp only [Option.getD_some]
      rw [effPath, if_neg (by simp)]

/-- C8 witness: creating over the two-node graph with
`pathPrefix = "pre"` stores `"pre/child"` (the slash-join of the prefix
and the relative path) as the child node's `__path`. -/
theorem c8_witness :
    typeof (.vObj 0) = "object" ∧
    (∀ e ∈ twoNodeEntries, entryValueOK twoNodeState e) ∧
    (∀ e ∈ twoNodeEntries, entryParentOK twoNodeState e) ∧
    (∀ e ∈ twoNodeEntries, e.parentKey ∉ specialNames) ∧
    edgesDistinct twoNodeEntries ∧
    twoNodeEntries = [(⟨"", .vObj 0, none, ""⟩ : ObjectPathEntry)] ++
      (⟨"child", .vObj 1, some 0, "child"⟩ : ObjectPathEntry) :: [] ∧
    (⟨"child", .vObj 1, some 0, "child"⟩ : ObjectPathEntry).value = .vObj 1 ∧
    getObj twoNodeState 1 = some ⟨false, []⟩ ∧
    (⟨false, []⟩ : JSObject).frozen = false ∧
    lookupProp twoNodeState 1 "__path" = none ∧
    (∀ e' ∈ [(⟨"", .vObj 0, none, ""⟩ : ObjectPathEntry)], e'.value ≠ .vObj 1) ∧
    (∀ e' ∈ ([] : List ObjectPathEntry), e'.value ≠ .vObj 1) ∧
    ∃ root' st', Proxies.create (.vObj 0) [7] (some "pre") twoNodeEntries twoNodeState =
        (.ok root', st') ∧
      (∀ p, (some "pre" : Option String) = some p → p ≠ "" →
        lookupProp st' 1 "__path" =
          some ⟨.vStr (Paths.create p "child"), false, false⟩) ∧
      (((some "pre" : Option String) = none ∨ (some "pre" : Option String) = some "") →
        lookupProp st' 1 "__path" = some ⟨.vStr "child", false, false⟩) := by
  have hvals : ∀ e ∈ twoNodeEntries, entryValueOK twoNodeState e := by
    intro e he
    rcases List.mem_cons.mp he with rfl | he2
    · exact ⟨0, ⟨false, [("child", ⟨.vObj 1, true, true⟩)]⟩, rfl, rfl,
        Or.inr ⟨rfl, trivial⟩⟩
    · rcases List.mem_singleton.mp he2 with rfl
      exact ⟨1, ⟨false, []⟩, rfl, rfl, Or.inr ⟨rfl, trivial⟩⟩
  have hpars : ∀ e ∈ twoNodeEntries, entryParentOK twoNodeState e := by
    intro e he
    rcases List.mem_cons.mp he with rfl | he2
    · intro pa hpa
      cases hpa
    · rcases List.mem_singleton.mp he2 with rfl
      intro pa hpa
      injection hpa with hpa'
      subst hpa'
      refine ⟨⟨false, [("child", ⟨.vObj 1, true, true⟩)]⟩, rfl, rfl, ?_⟩
      intro d hd
      injection hd with hd'
      rw [← hd']
  have hkeys : ∀ e ∈ twoNodeEntries, e.parentKey ∉ specialNames := by
    intro e he
    rcases List.mem_cons.mp he with rfl | he2
    · decide
    · rcases List.mem_singleton.mp he2 with rfl
      decide
  have hdist : edgesDistinct twoNodeEntries := by
    refine List.Pairwise.cons ?_ (List.pairwise_singleton _ _)
    intro e' he' p hp
    simp [entryEdge] at hp
  have hpre : ∀ e' ∈ [(⟨"", .vObj 0, none, ""⟩ : ObjectPathEntry)],
      e'.value ≠ .vObj 1 := by
    intro e' he'
    rcases List.mem_singleton.mp he' with rfl
    simp
  have hpost : ∀ e' ∈ ([] : List ObjectPathEntry), e'.value ≠ .vObj 1 :=
    fun e' he' => absurd he' (List.not_mem_nil e')
  exact ⟨rfl, hvals, hpars, hkeys, hdist, rfl, rfl, rfl, rfl, rfl, hpre, hpost,
    c8_create_path_prefixing (.vObj 0) [7] (some "pre") twoNodeEntries twoNodeState
      rfl hvals hpars hkeys hdist [⟨"", .vObj 0, none, ""⟩]
      ⟨"child", .vObj 1, some 0, "child"⟩ [] 1 ⟨false, []⟩ rfl rfl rfl rfl rfl
      hpre hpost⟩

/-- C10, counterexample: with scroll position `(0, 0)`, viewport height
`200` and scroll-box height `201`, `fullyPaginated` reports `true` even
though the scroll position plus the viewport height (`200`) has not
reached the scroll-box height (`201`): `perc` rounds `99.5…%` up to
`100`.  So `fullyPaginated` is not true *exactly* when the bottom is
reached. -/
theorem c10_fullyPaginated_counterexample :
    PagingBrowser.fullyPaginated
      ⟨⟨0, 0⟩, ⟨300, 201⟩, ⟨300, 200⟩⟩ = true ∧
    ¬ (201 ≤ (0 : ℚ) + 200) := by
  constructor
  · simp only [PagingBrowser.fullyPaginated, PagingBrowser.visualScrollPercentage,
      PagingBrowser.perc, decide_eq_true_eq]
    have h0 : (0 : ℚ) + 200 = (200 : ℚ) := by norm_num
    rw [h0]
    have hceil1 : (⌈(200 : ℚ)⌉ : ℤ) = 200 := by
      exact_mod_cast Int.ceil_intCast (α := ℚ) 200
    rw [hceil1]
    have hmin : min (100 * (((200 : ℤ) : ℚ) / 201)) 100 = (20000 / 201 : ℚ) := by
      rw [min_eq_left]
      · norm_num
      · norm_num
    rw [hmin]
    have hceil2 : (⌈(20000 / 201 : ℚ)⌉ : ℤ) = 100 := by
      rw [Int.ceil_eq_iff]
      norm_num
    rw [hceil2]
    norm_num
  · norm_num

/-- C10 (amended): for every numerator `n` and positive denominator `d`,
`PagingBrowser.perc n d` is at most `100`, and equals exactly `100`
whenever `⌈n⌉` is at least `d`; `fullyPaginated` reports `true` exactly
when the capped percentage rounds up to at least `100`, i.e. when
`99 * scrollBox.height < 100 * ⌈scrollPosition.y + viewportBox.height⌉`
— in particular whenever the scroll position plus viewport height
reaches the scroll-box height, but possibly also slightly before. -/
theorem c10_perc_bounded_and_fullyPaginated_iff (n d : ℚ) (state : PagingState)
    (hd : 0 < d) (hH : 0 < state.scrollBox.height) :
    PagingBrowser.perc n d ≤ 100 ∧
    (d ≤ (⌈n⌉ : ℚ) → PagingBrowser.perc n d = 100) ∧
    (PagingBrowser.fullyPaginated state = true ↔
      99 * state.scrollBox.height <
        100 * (⌈state.scrollPosition.y + state.viewportBox.height⌉ : ℚ)) := by
  refine ⟨?_, ?_, ?_⟩
  · unfold PagingBrowser.perc
    have h1 : min (100 * ((⌈n⌉ : ℚ) / d)) 100 ≤ ((100 : ℤ) : ℚ) := by
      simp
    have h2 : (⌈min (100 * ((⌈n⌉ : ℚ) / d)) 100⌉ : ℤ) ≤ 100 := Int.ceil_le.mpr h1
    exact_mod_cast h2
  · intro hnd
    unfold PagingBrowser.perc
    have hone : (1 : ℚ) ≤ (⌈n⌉ : ℚ) / d := (one_le_div hd).mpr hnd
    have h100 : (100 : ℚ) ≤ 100 * ((⌈n⌉ : ℚ) / d) := by
      nlinarith
    rw [min_eq_right h100]
    norm_num
  · unfold PagingBrowser.fullyPaginated PagingBrowser.visualScrollPercentage
      PagingBrowser.perc
    set yh : ℚ := state.scrollPosition.y + state.viewportBox.height with hyh
    set H : ℚ := state.scrollBox.height with hHdef
    simp only [decide_eq_true_eq]
    have hcast : (100 : ℚ) ≤ ((⌈min (100 * ((⌈yh⌉ : ℚ) / H)) 100⌉ : ℤ) : ℚ) ↔
        (100 : ℤ) ≤ ⌈min (100 * ((⌈yh⌉ : ℚ) / H)) 100⌉ := by
      exact_mod_cast Iff.rfl
    rw [hcast]
    have hceil : (100 : ℤ) ≤ ⌈min (100 * ((⌈yh⌉ : ℚ) / H)) 100⌉ ↔
        ((99 : ℤ) : ℚ) < min (100 * ((⌈yh⌉ : ℚ) / H)) 100 := by
      constructor
      · intro h
        exact Int.add_one_le_ceil_iff.mp (by exact_mod_cast h)
      · intro h
        have := Int.add_one_le_ceil_iff.mpr h
        exact_mod_cast this
    rw [hceil]
    have h99 : ((99 : ℤ) : ℚ) < min (100 * ((⌈yh⌉ : ℚ) / H)) 100 ↔
        (99 : ℚ) < 100 * ((⌈yh⌉ : ℚ) / H) := by
      rw [lt_min_iff]
      constructor
      · exact fun h => h.1
      · intro h
        exact ⟨by exact_mod_cast h, by norm_num⟩
    rw [h99, mul_div_assoc' 100 _ H, lt_div_iff₀ hH]

/-- C10 witness: the amended theorem instantiated at `n = 200`,
`d = 100` and a state with viewport height `200`, scroll-box height
`200`, scroll position `0`. -/
theorem c10_witness :
    (0 : ℚ) < 100 ∧ (0 : ℚ) < (200 : ℚ) ∧
    (PagingBrowser.perc 200 100 ≤ 100 ∧
      ((100 : ℚ) ≤ ((⌈(200 : ℚ)⌉ : ℤ) : ℚ) → PagingBrowser.perc 200 100 = 100) ∧
      (PagingBrowser.fullyPaginated ⟨⟨0, 0⟩, ⟨300, 200⟩, ⟨300, 200⟩⟩ = true ↔
        99 * (200 : ℚ) < 100 * ((⌈(0 : ℚ) + 200⌉ : ℤ) : ℚ))) :=
  ⟨by norm_num, by norm_num,
    c10_perc_bounded_and_fullyPaginated_iff 200 100
      ⟨⟨0, 0⟩, ⟨300, 200⟩, ⟨300, 200⟩⟩ (by norm_num) (by norm_num)⟩

end PolarProxies
